import Mathlib

set_option maxHeartbeats 1600000
set_option maxRecDepth 4096

/-!
Shallow embedding of the trading-bot core (signal parser, validator,
two-message merge protocol, per-signal monitor and price-provider
aggregation) from the repository sources:

* `src/parser/advanced_parser.py`
* `src/bot/telethon_bot.py`
* `src/exchanges/multi_exchange.py`, `src/exchanges/binance_public.py`

Strings are modelled as `List Char` (Python `str` indexing is by code
point, which coincides with `List Char` indexing).  Prices and times are
modelled as `ℚ`: the program only ever compares prices and forms exact
decimal literals, so rationals model the float values the code actually
manipulates (the idealization is noted where it matters).  Python regular
expressions are transcribed as dedicated character-level scanners; each
scanner's doc comment quotes the regex it implements.
-/

namespace TradingBot

abbrev Cs := List Char

/-- Lower/upper case pairs covering ASCII and the Cyrillic alphabet, the
two alphabets the program's vocabulary uses.  Python's `str.upper` /
`str.lower` are modelled as the character maps induced by this table. -/
def casePairs : List (Char × Char) :=
  [('a','A'),('b','B'),('c','C'),('d','D'),('e','E'),('f','F'),('g','G'),
   ('h','H'),('i','I'),('j','J'),('k','K'),('l','L'),('m','M'),('n','N'),
   ('o','O'),('p','P'),('q','Q'),('r','R'),('s','S'),('t','T'),('u','U'),
   ('v','V'),('w','W'),('x','X'),('y','Y'),('z','Z'),
   ('а','А'),('б','Б'),('в','В'),('г','Г'),('д','Д'),('е','Е'),('ж','Ж'),
   ('з','З'),('и','И'),('й','Й'),('к','К'),('л','Л'),('м','М'),('н','Н'),
   ('о','О'),('п','П'),('р','Р'),('с','С'),('т','Т'),('у','У'),('ф','Ф'),
   ('х','Х'),('ц','Ц'),('ч','Ч'),('ш','Ш'),('щ','Щ'),('ъ','Ъ'),('ы','Ы'),
   ('ь','Ь'),('э','Э'),('ю','Ю'),('я','Я'),('ё','Ё')]

/-- Python `str.upper` on one character (ASCII + Cyrillic). -/
def pyToUpper (c : Char) : Char :=
  match casePairs.find? (fun p => p.1 = c) with
  | some p => p.2
  | none => c

/-- Python `str.lower` on one character (ASCII + Cyrillic). -/
def pyToLower (c : Char) : Char :=
  match casePairs.find? (fun p => p.2 = c) with
  | some p => p.1
  | none => c

def pyUpper (l : Cs) : Cs := l.map pyToUpper

def pyLower (l : Cs) : Cs := l.map pyToLower

/-- ASCII decimal digit, as matched by the program's uses of the regex
class `\d` on its inputs. -/
def isDigitC (c : Char) : Bool := '0' ≤ c ∧ c ≤ '9'

def isUpperAZ (c : Char) : Bool := 'A' ≤ c ∧ c ≤ 'Z'

def isLowerAZ (c : Char) : Bool := 'a' ≤ c ∧ c ≤ 'z'

def isAlphaEn (c : Char) : Bool := isUpperAZ c || isLowerAZ c

def isAlnumEn (c : Char) : Bool := isAlphaEn c || isDigitC c

/-- Cyrillic letter (the uppercase and lowercase ranges plus Ё/ё). -/
def isCyr (c : Char) : Bool := ('А' ≤ c ∧ c ≤ 'я') || c = 'Ё' || c = 'ё'

/-- Python regex `\s` restricted to the whitespace the inputs contain. -/
def isWS (c : Char) : Bool :=
  c = ' ' || c = '\t' || c = '\n' || c = '\r' || c = '\x0b' || c = '\x0c'

/-- Python regex word character `\w` (and the notion underlying `\b`) for
the Latin/Cyrillic texts the program processes. -/
def isWordC (c : Char) : Bool := isAlnumEn c || c = '_' || isCyr c

/-- Case-insensitive character comparison, as under `re.IGNORECASE`. -/
def charEqCI (a b : Char) : Bool := pyToLower a = pyToLower b

/-- Python `str.strip()`: remove leading and trailing whitespace. -/
def pyStrip (l : Cs) : Cs :=
  ((l.dropWhile isWS).reverse.dropWhile isWS).reverse

/-- Is `needle` a prefix of `hay` (case-sensitive)? -/
def isPre : Cs → Cs → Bool
  | [], _ => true
  | _ :: _, [] => false
  | a :: as, b :: bs => a = b && isPre as bs

/-- Is `needle` a prefix of `hay`, case-insensitively? -/
def isPreCI : Cs → Cs → Bool
  | [], _ => true
  | _ :: _, [] => false
  | a :: as, b :: bs => charEqCI a b && isPre' as bs
where
  isPre' : Cs → Cs → Bool
  | [], _ => true
  | _ :: _, [] => false
  | a :: as, b :: bs => charEqCI a b && isPre' as bs

/-- Python `needle in hay` substring test (case-sensitive). -/
def containsSub (hay needle : Cs) : Bool :=
  match hay with
  | [] => isPre needle []
  | _ :: t => isPre needle hay || containsSub t needle

/-- Python `str.find(needle, start)` returning a code-point index. -/
def posFind (hay needle : Cs) (start : ℕ) : Option ℕ :=
  go (hay.drop start) start
where
  go : Cs → ℕ → Option ℕ
  | [], i => if isPre needle [] then some i else none
  | c :: t, i => if isPre needle (c :: t) then some i else go t (i + 1)

/-- Python `str.count(',')`-style character count. -/
def countChar (c : Char) (l : Cs) : ℕ := (l.filter (· = c)).length

/-- Split on a single character (Python `str.split(c)` semantics:
keeps empty pieces). -/
def splitOnChar (c : Char) : Cs → List Cs
  | [] => [[]]
  | a :: t =>
    let r := splitOnChar c t
    if a = c then [] :: r
    else match r with
      | [] => [[a]]
      | h :: rest => (a :: h) :: rest

/-- Split on maximal nonempty runs of characters satisfying `p`,
dropping empty pieces at the ends, as `re.split` on a `[...]+` class
behaves once empty tokens are skipped by the callers. -/
def splitOnClass (p : Char → Bool) (l : Cs) : List Cs :=
  go [] l
where
  go (cur : Cs) : Cs → List Cs
  | [] => if cur.isEmpty then [] else [cur.reverse]
  | c :: t =>
    if p c then
      if cur.isEmpty then go [] t else cur.reverse :: go [] t
    else go (c :: cur) t

def digitsToNat (l : Cs) : ℕ :=
  l.foldl (fun acc c => acc * 10 + (c.toNat - '0'.toNat)) 0

/-! Kernel-computable rational arithmetic.  The standard `ℚ` operations
normalize through `Nat.gcd` inside `Rat.add` etc., which the kernel
does not unfold, so concrete runs of the embedding could not be checked
by `decide`.  These `mkRat`-based equivalents compute in the kernel;
they are proved equal to the standard operations in the theorem
section, so abstract reasoning still uses ordinary arithmetic. -/

def qAdd (a b : ℚ) : ℚ := mkRat (a.num * b.den + b.num * a.den) (a.den * b.den)

def qSub (a b : ℚ) : ℚ := mkRat (a.num * b.den - b.num * a.den) (a.den * b.den)

def qMul (a b : ℚ) : ℚ := mkRat (a.num * b.num) (a.den * b.den)

def qInv (a : ℚ) : ℚ :=
  mkRat (if 0 ≤ a.num then (a.den : ℤ) else -(a.den : ℤ)) a.num.natAbs

def qDiv (a b : ℚ) : ℚ := qMul a (qInv b)

def qAbs (a : ℚ) : ℚ := mkRat |a.num| a.den

/-- Python `float(s)` on the digit/dot/sign strings the extractors
produce; `none` models `ValueError`.  (Exponents, `inf`/`nan` cannot
occur: the capturing character classes never include letters.) -/
def pyFloat? (s : Cs) : Option ℚ :=
  let t := pyStrip s
  match t with
  | '-' :: rest => (core rest).map (fun q => -q)
  | '+' :: rest => core rest
  | _ => core t
where
  core (t : Cs) : Option ℚ :=
    let intD := t.takeWhile isDigitC
    let rest := t.dropWhile isDigitC
    match rest with
    | [] => if intD.isEmpty then none else some ((digitsToNat intD : ℤ) : ℚ)
    | '.' :: frac =>
      if frac.all isDigitC && !(intD.isEmpty && frac.isEmpty) then
        some (mkRat (digitsToNat intD * 10 ^ frac.length + digitsToNat frac)
          (10 ^ frac.length))
      else none
    | _ => none

/-- Python `int(s)` on pure digit strings. -/
def pyInt? (s : Cs) : Option ℕ :=
  let t := pyStrip s
  if !t.isEmpty && t.all isDigitC then some (digitsToNat t) else none

/-- Python `str.isdigit()`. -/
def pyIsDigitStr (l : Cs) : Bool := !l.isEmpty && l.all isDigitC

/-- Keep the first occurrence of each element (Python keeps insertion
order when deduplicating with a `seen` set). -/
def dedupKeepFirst (l : List ℚ) : List ℚ :=
  go [] l
where
  go (seen : List ℚ) : List ℚ → List ℚ
  | [] => []
  | a :: t => if a ∈ seen then go seen t else a :: go (a :: seen) t

/-- Insertion into an ascending-sorted list. -/
def insertAsc (x : ℚ) : List ℚ → List ℚ
  | [] => [x]
  | a :: t => if x ≤ a then x :: a :: t else a :: insertAsc x t

/-- Python `list.sort()` (ascending) on rationals. -/
def sortAsc (l : List ℚ) : List ℚ := l.foldr insertAsc []

/-- Python `list.sort(reverse=True)` (descending). -/
def sortDesc (l : List ℚ) : List ℚ := (sortAsc l).reverse

/-! ### The Signal record

`TradeSignal` dataclass, `advanced_parser.py` lines 11-28.  Prices are
rationals (exact decimal values of the floats the code builds), the
creation timestamp is a rational number of seconds. -/

structure TradeSignal where
  symbol : String := "UNKNOWN"
  direction : String := "UNKNOWN"
  entry_prices : List ℚ := []
  limit_prices : List ℚ := []
  take_profits : List ℚ := []
  stop_loss : Option ℚ := none
  leverage : Option ℕ := none
  margin : Option ℚ := none
  source : String := "Unknown"
  timestamp : ℚ := 0
  is_market : Bool := false
  entry_executed : Bool := false
  original_text : String := ""
  risk_level : Option String := none
  confidence : Option ℕ := none
deriving Repr, DecidableEq

/-- Python truthiness of an optional number (`a or b` takes `b` when `a`
is `None` or `0`). -/
def pyOrN (a b : Option ℕ) : Option ℕ :=
  match a with
  | some x => if x ≠ 0 then some x else b
  | none => b

/-- Python `a or b` on optional rationals. -/
def pyOrQ (a b : Option ℚ) : Option ℚ :=
  match a with
  | some x => if x ≠ 0 then some x else b
  | none => b

/-! ### Symbol normalization (claim C9) -/

/-- Suffix test on character lists (Python `str.endswith`). -/
def endsWithL (l suf : Cs) : Bool := isPre suf.reverse l.reverse

/-- Quote assets recognized by `BinancePublicAPI.normalize_symbol`
(`binance_public.py` line 203). -/
def binanceQuoteAssets : List Cs :=
  (["USDT", "BUSD", "BTC", "ETH", "BNB", "USD", "EUR"]).map String.data

/-- `BinancePublicAPI.normalize_symbol` (`binance_public.py` lines
198-211): upper-case, drop `/`, and append `USDT` when the symbol does
not already end with a known quote asset. -/
def binanceNormalizeSymbol (s : Cs) : Cs :=
  let u := (pyUpper s).filter (fun c => c ≠ '/')
  if binanceQuoteAssets.any (fun q => endsWithL u q) then u
  else u ++ ("USDT").data

/-- The parser-internal `normalize_symbol` (`advanced_parser.py` lines
242-244): `re.sub` removing every character outside `A-Z0-9` from the
upper-cased string. -/
def parserNormalizeSymbol (s : Cs) : Cs :=
  (pyUpper s).filter (fun c => isUpperAZ c || isDigitC c)

/-! ### Price-provider aggregation (claim C10)

`MultiExchangeAPI.get_current_price`, `multi_exchange.py` lines 43-73.
Each backing exchange is summarized by the observable outcome of its
`is_symbol_valid`/`get_current_price` calls for the requested symbol. -/

/-- Outcome of one backing provider: a normal reply (validity flag plus
optional price), a raised event-loop-closed `RuntimeError`, or any other
exception. -/
inductive ProviderResult where
  | ok (valid : Bool) (price : Option ℚ)
  | loopError
  | failure
deriving Repr, DecidableEq

/-- The provider loop of `MultiExchangeAPI.get_current_price`: first
exchange whose symbol is valid and whose price is truthy and positive
wins; an event-loop error aborts; other exceptions continue. -/
def tryProviders : List (String × ProviderResult) → Option ℚ × String
  | [] => (none, "None")
  | (name, r) :: rest =>
    match r with
    | .loopError => (none, "Event loop closed")
    | .failure => tryProviders rest
    | .ok valid price =>
      if valid then
        match price with
        | some p => if p ≠ 0 ∧ 0 < p then (some p, name) else tryProviders rest
        | none => tryProviders rest
      else tryProviders rest

/-- `MultiExchangeAPI.get_current_price` with its fixed exchange list
`[("Binance", ...), ("BingX", ...)]` and the up-front event-loop check. -/
def multiExchangeGetCurrentPrice (loopClosed : Bool)
    (binance bingx : ProviderResult) : Option ℚ × String :=
  if loopClosed then (none, "Event loop closed")
  else tryProviders [("Binance", binance), ("BingX", bingx)]

/-! ### The Monitor (claims C3, C4, C6)

`TelethonTradingBot.monitor_signal`, `telethon_bot.py` lines 1508-1673,
modelled as a fold over the finite sequence of poll results
`(price?, exchange)` returned by `price_cache.get_price`.  The history
sink (`save_to_history`, lines 1675-1706) is modelled by the
`(close_reason, close_price)` records appended to `history`. -/

structure MonitorState where
  sig : TradeSignal
  reached : List ℕ := []
  errorCount : ℕ := 0
  history : List (String × ℚ) := []
  closed : Option String := none
deriving Repr, DecidableEq

/-- `max_errors = 5` (`telethon_bot.py` line 1517). -/
def maxErrors : ℕ := 5

/-- The take-profit marking pass (lines 1570-1584).  It runs only inside
`if signal.entry_prices:`; the `else` branch of the direction test
covers every non-LONG direction, as in the source. -/
def updateReached (sig : TradeSignal) (reached : List ℕ) (p : ℚ) : List ℕ :=
  if sig.entry_prices.isEmpty then reached
  else
    (List.range sig.take_profits.length).foldl
      (fun acc i =>
        let tp := sig.take_profits.getD i 0
        if sig.direction = "LONG" then
          if p ≥ tp ∧ i ∉ acc then acc ++ [i] else acc
        else
          if p ≤ tp ∧ i ∉ acc then acc ++ [i] else acc)
      reached

/-- The stop-loss test (lines 1630-1632); `if signal.stop_loss:` makes a
stop of `0` falsy and therefore never checked. -/
def stopHit (sig : TradeSignal) (p : ℚ) : Bool :=
  match sig.stop_loss with
  | none => false
  | some sl =>
    sl ≠ 0 && ((sig.direction = "LONG" && p ≤ sl) ||
               (sig.direction = "SHORT" && p ≥ sl))

/-- One iteration of the monitor loop.  A poll whose exchange field is
the sentinel string `"Event loop closed"` closes the signal with reason
`event_loop_error` (lines 1533-1546); an unavailable price increments
the consecutive-failure counter and closes with `symbol_not_found` at
the fifth failure, close price `0` (lines 1548-1563); a successful read
resets the counter, marks take-profits, and checks the two normal
termination conditions (lines 1565-1637). -/
def monitorStep (st : MonitorState) (poll : Option ℚ × String) : MonitorState :=
  if st.closed.isSome then st
  else if poll.2 = "Event loop closed" then
    { st with history := st.history ++ [("event_loop_error", 0)],
              closed := some "event_loop_error" }
  else
    match poll.1 with
    | none =>
      if maxErrors ≤ st.errorCount + 1 then
        { st with errorCount := st.errorCount + 1,
                  history := st.history ++ [("symbol_not_found", 0)],
                  closed := some "symbol_not_found" }
      else { st with errorCount := st.errorCount + 1 }
    | some p =>
      let reached := updateReached st.sig st.reached p
      if reached.length = st.sig.take_profits.length ∧
          ¬ st.sig.take_profits.isEmpty then
        { st with errorCount := 0, reached := reached,
                  history := st.history ++ [("all_take_profits", p)],
                  closed := some "all_take_profits" }
      else if stopHit st.sig p then
        { st with errorCount := 0, reached := reached,
                  history := st.history ++ [("stop_loss", p)],
                  closed := some "stop_loss" }
      else { st with errorCount := 0, reached := reached }

/-- Initial monitor state for a freshly admitted signal. -/
def monitorInit (sig : TradeSignal) : MonitorState := { sig := sig }

/-- The monitor loop over a finite list of polls; iterations after the
signal is closed leave the state unchanged (the loop has exited). -/
def monitorRun (st : MonitorState) (polls : List (Option ℚ × String)) :
    MonitorState :=
  polls.foldl monitorStep st

/-- The terminal reasons `monitor_signal` can actually write. -/
def monitorTerminalReasons : List String :=
  ["all_take_profits", "stop_loss", "symbol_not_found", "event_loop_error"]

/-! ### Regex scanning machinery

Each Python regex used by the program is transcribed as a scanner
(`tryAt`) that attempts a match at one position of the text; `scanFirst`
gives `re.search` (leftmost match), `scanAll` gives `re.finditer`
(leftmost, non-overlapping).  `tryAt` receives the character preceding
the position (for `\b` word boundaries) and the remaining suffix. -/

/-- Leftmost match: try at each position, as `re.search`. -/
def scanFirst (tryAt : Option Char → Cs → Option α) :
    Option Char → Cs → Option α
  | prev, [] => tryAt prev []
  | prev, c :: rest =>
    match tryAt prev (c :: rest) with
    | some a => some a
    | none => scanFirst tryAt (some c) rest

/-- `re.search` from the start of the text. -/
def reSearch (tryAt : Option Char → Cs → Option α) (l : Cs) : Option α :=
  scanFirst tryAt none l

/-- All leftmost, non-overlapping matches, as `re.finditer`.  A match
returns the result, the last character it consumed and the remaining
suffix.  Fuel bounds the recursion and is always ample. -/
def scanAll (tryAt : Option Char → Cs → Option (α × Char × Cs)) :
    ℕ → Option Char → Cs → List α
  | 0, _, _ => []
  | _ + 1, _, [] => []
  | fuel + 1, prev, c :: rest =>
    match tryAt prev (c :: rest) with
    | some (a, lastC, after) => a :: scanAll tryAt fuel (some lastC) after
    | none => scanAll tryAt fuel (some c) rest

/-- `re.finditer` over the whole text. -/
def reFindAll (tryAt : Option Char → Cs → Option (α × Char × Cs)) (l : Cs) :
    List α :=
  scanAll tryAt (l.length + 1) none l

/-- Consume a literal, case-insensitively (`re.IGNORECASE`). -/
def dropLitCI : Cs → Cs → Option Cs
  | [], l => some l
  | _ :: _, [] => none
  | a :: as, b :: bs => if charEqCI a b then dropLitCI as bs else none

/-- Consume a literal, case-sensitively. -/
def dropLit : Cs → Cs → Option Cs
  | [], l => some l
  | _ :: _, [] => none
  | a :: as, b :: bs => if a = b then dropLit as bs else none

/-- Greedy run of a character class (`[...]​+` / `[...]​*`). -/
def takeCls (p : Char → Bool) (l : Cs) : Cs × Cs :=
  (l.takeWhile p, l.dropWhile p)

/-- The separator class `[:\s-]` used by the labelled-value patterns. -/
def sepCls (c : Char) : Bool := c = ':' || isWS c || c = '-'

/-- The value class `[\d.,-~]` of the entry/limit patterns. -/
def valCls (c : Char) : Bool :=
  isDigitC c || c = '.' || c = ',' || c = '-' || c = '~'

/-- The value class `[\d.,~]` of the stop-loss patterns. -/
def stopValCls (c : Char) : Bool :=
  isDigitC c || c = '.' || c = ',' || c = '~'

/-- The numeric class `[\d.,]`. -/
def numCls (c : Char) : Bool := isDigitC c || c = '.' || c = ','

/-- Last character of a nonempty capture (fed back to the scanner as the
new preceding character). -/
def lastD (l : Cs) : Char := l.getLastD ' '

/-- Matcher for `LABEL[:\s-]+([CLASS]+)` at one position (the shape of
the entry, limit and stop labelled-field patterns; none of them uses a
word boundary).  Returns the captured group and the continuation. -/
def tryLabelVal (label : Cs) (vclass : Char → Bool) :
    Option Char → Cs → Option (Cs × Char × Cs) :=
  fun _ l =>
  match dropLitCI label l with
  | none => none
  | some r1 =>
    let (sep, r2) := takeCls sepCls r1
    if sep.isEmpty then none
    else
      let (v, r3) := takeCls vclass r2
      if v.isEmpty then none
      else some (v, lastD v, r3)

/-! ### Entry-price extraction

`AdvancedParser.extract_entry_prices`, `advanced_parser.py` lines
398-451. -/

/-- Labels of the seven plain labelled-field entry patterns, in source
order: `твх`, `вход`, `entry`, `цена входа`, `точка входа`, `вх`,
`лимитка` (each regex is `LABEL[:\s-]+([\d.,-~]+)` with IGNORECASE). -/
def entryLabels : List Cs :=
  (["твх", "вход", "entry", "цена входа", "точка входа", "вх",
    "лимитка"]).map String.data

/-- Matcher for `входим на[:\s-]+(\d+(?:[.,]\d+)?)(?![%])`: an amount
after the label, not followed by a percent sign; when the full decimal
is vetoed by the lookahead the integer part alone still matches, as the
backtracking regex engine behaves. -/
def tryEntryNa : Option Char → Cs → Option (Cs × Char × Cs) :=
  fun _ l =>
  match dropLitCI ("входим на").data l with
  | none => none
  | some r1 =>
    let (sep, r2) := takeCls sepCls r1
    if sep.isEmpty then none
    else
      let (d1, r3) := takeCls isDigitC r2
      if d1.isEmpty then none
      else
        match r3 with
        | sc :: r4 =>
          if sc = '.' ∨ sc = ',' then
            let (d2, r5) := takeCls isDigitC r4
            if d2.isEmpty then
              -- no fractional digits: the optional group is empty
              if (r3.headD ' ') = '%' then none
              else some (d1, lastD d1, r3)
            else if (r5.headD ' ') ≠ '%' then
              some (d1 ++ [sc] ++ d2, lastD d2, r5)
            else
              -- lookahead fails on the decimal; the integer part is
              -- followed by the separator, never by '%'
              some (d1, lastD d1, r3)
          else if sc = '%' then none
          else some (d1, lastD d1, r3)
        | [] => some (d1, lastD d1, [])

/-- Matcher for `~([\d.,]+)\$`. -/
def tryEntryTilde : Option Char → Cs → Option (Cs × Char × Cs) :=
  fun _ l =>
  match l with
  | '~' :: r1 =>
    let (v, r2) := takeCls numCls r1
    if v.isEmpty then none
    else match r2 with
      | '$' :: r3 => some (v, '$', r3)
      | _ => none
  | _ => none

/-- Range-part processing of one captured entry string (lines 426-433):
split on `-`, decimal commas become points, parts that fail `float`
abort the loop but keep the values appended before them. -/
def processEntryRange : List Cs → List ℚ → List ℚ
  | [], acc => acc
  | p :: rest, acc =>
    let pc := pyStrip (p.map (fun c => if c = ',' then '.' else c))
    if pc.isEmpty then processEntryRange rest acc
    else match pyFloat? pc with
      | some v =>
        processEntryRange rest (acc ++ if v > mkRat 1 1000 then [v] else [])
      | none => acc

/-- Processing of one captured entry string (lines 419-441): strip `~`
and `$`, treat a non-leading `-` as a range, drop values at or below the
`0.001` stray-percentage epsilon. -/
def processEntryCapture (cap : Cs) : List ℚ :=
  let clean := pyStrip (cap.filter (fun c => c ≠ '~' && c ≠ '$'))
  if containsSub clean ['-'] && clean.head? ≠ some '-' then
    processEntryRange (splitOnChar '-' clean) []
  else
    match pyFloat? (clean.map (fun c => if c = ',' then '.' else c)) with
    | some v => if v > mkRat 1 1000 then [v] else []
    | none => []

/-- `AdvancedParser.extract_entry_prices`: run the nine patterns in
order, process every capture, deduplicate preserving order. -/
def extract_entry_prices (text : Cs) : List ℚ :=
  let caps :=
    (entryLabels.map (fun lab => reFindAll (tryLabelVal lab valCls) text)).flatten
      ++ reFindAll tryEntryNa text
      ++ reFindAll tryEntryTilde text
  dedupKeepFirst (caps.foldl (fun acc c => acc ++ processEntryCapture c) [])

/-! ### Limit-price extraction

`AdvancedParser.extract_limit_prices`, `advanced_parser.py` lines
453-481. -/

/-- Matcher for `лимит(?:ка|ный ордер)?[:\s-]+([\d.,-~]+)`: the optional
suffix alternatives are tried in order `ка`, `ный ордер`, empty. -/
def tryLimitOpt : Option Char → Cs → Option (Cs × Char × Cs) :=
  fun _ l =>
  match dropLitCI ("лимит").data l with
  | none => none
  | some r1 =>
    let afterSuffix : List Cs :=
      (match dropLitCI ("ка").data r1 with | some r => [r] | none => []) ++
      (match dropLitCI ("ный ордер").data r1 with | some r => [r] | none => []) ++
      [r1]
    firstVal afterSuffix
where
  firstVal : List Cs → Option (Cs × Char × Cs)
  | [] => none
  | r :: rs =>
    let (sep, r2) := takeCls sepCls r
    if sep.isEmpty then firstVal rs
    else
      let (v, r3) := takeCls valCls r2
      if v.isEmpty then firstVal rs
      else some (v, lastD v, r3)

/-- Labels of the remaining limit patterns, in source order. -/
def limitLabels : List Cs :=
  (["limit", "лимитный ордер на", "при стоимости монеты в", "лимитка",
    "усреднение"]).map String.data

/-- Processing of one captured limit string (line 475): decimal comma to
point, strip `~`, `float`, no epsilon filter and no range split. -/
def processLimitCapture (cap : Cs) : List ℚ :=
  match pyFloat?
      (pyStrip ((cap.map (fun c => if c = ',' then '.' else c)).filter
        (· ≠ '~'))) with
  | some v => [v]
  | none => []

/-- `AdvancedParser.extract_limit_prices`: all patterns, then
`sorted(list(set(...)))`. -/
def extract_limit_prices (text : Cs) : List ℚ :=
  let caps :=
    reFindAll tryLimitOpt text
      ++ (limitLabels.map (fun lab => reFindAll (tryLabelVal lab valCls) text)).flatten
  sortAsc (dedupKeepFirst
    (caps.foldl (fun acc c => acc ++ processLimitCapture c) []))

/-! ### Stop-loss extraction

`AdvancedParser.extract_stop_loss`, `advanced_parser.py` lines 483-506.
Note that no pattern matches a plain Latin `Stop:` label: the Latin
pattern requires the word `loss` (`stop[-\s]?loss?`), the other
patterns are Cyrillic or emoji. -/

/-- Matcher for `стоп[-\s]?лосс?[:\s-]+([\d.,~]+)` (and its Latin twin
via the parameters): label, optional single separator, `лос` plus
optional `с`, then separator and value. -/
def tryStopLoss (word1 word2 : Cs) (optC : Char) :
    Option Char → Cs → Option (Cs × Char × Cs) :=
  fun _ l =>
  match dropLitCI word1 l with
  | none => none
  | some r1 =>
    let mids : List Cs :=
      (match r1 with
        | c :: r2 => if c = '-' || isWS c then [r2] else []
        | [] => []) ++ [r1]
    firstVal mids
where
  firstVal : List Cs → Option (Cs × Char × Cs)
  | [] => none
  | r :: rs =>
    match dropLitCI word2 r with
    | none => firstVal rs
    | some r3 =>
      let tails : List Cs :=
        (match r3 with
          | c :: r4 => if charEqCI c optC then [r4] else []
          | [] => []) ++ [r3]
      match firstSep tails with
      | some res => some res
      | none => firstVal rs
  firstSep : List Cs → Option (Cs × Char × Cs)
  | [] => none
  | r :: rs =>
    let (sep, r2) := takeCls sepCls r
    if sep.isEmpty then firstSep rs
    else
      let (v, r3) := takeCls stopValCls r2
      if v.isEmpty then firstSep rs
      else some (v, lastD v, r3)

/-- Matcher for `🚫[:\s-]+([\d.,~]+)` / `❌[:\s-]+([\d.,~]+)` /
`стоп[:\s-]+([\d.,~]+)`. -/
def tryStopPlain (label : Cs) : Option Char → Cs → Option (Cs × Char × Cs) :=
  tryLabelVal label stopValCls

/-- Matcher for `Стоп:\s*([\d.,~]+)` (IGNORECASE; `\s*` allows zero
separators after the colon). -/
def tryStopColon : Option Char → Cs → Option (Cs × Char × Cs) :=
  fun _ l =>
  match dropLitCI ("стоп:").data l with
  | none => none
  | some r1 =>
    let (_, r2) := takeCls isWS r1
    let (v, r3) := takeCls stopValCls r2
    if v.isEmpty then none else some (v, lastD v, r3)

/-- Conversion of a stop capture (line 501): comma to point, drop `~`. -/
def stopOfCapture (cap : Cs) : Option ℚ :=
  pyFloat? ((cap.map (fun c => if c = ',' then '.' else c)).filter (· ≠ '~'))

/-- `AdvancedParser.extract_stop_loss`: first match of each pattern in
order; a failed `float` falls through to the next pattern. -/
def extract_stop_loss (text : Cs) : Option ℚ :=
  go [reSearch (tryStopLoss ("стоп").data ("лос").data 'с') text,
      reSearch (tryStopLoss ("stop").data ("los").data 's') text,
      reSearch (tryStopPlain ("🚫").data) text,
      reSearch (tryStopPlain ("❌").data) text,
      reSearch (tryStopPlain ("стоп").data) text,
      reSearch tryStopColon text]
where
  go : List (Option (Cs × Char × Cs)) → Option ℚ
  | [] => none
  | none :: rest => go rest
  | some (cap, _, _) :: rest =>
    match stopOfCapture cap with
    | some v => some v
    | none => go rest

/-! ### Leverage extraction

`AdvancedParser.extract_leverage`, `advanced_parser.py` lines 508-535. -/

/-- Matcher for `(\d+)\s*[XxХх]\b` (Latin and Cyrillic x).  A shorter
digit prefix is always followed by a digit and can never match, so only
the full run is a candidate. -/
def tryLevX : Option Char → Cs → Option ℕ :=
  fun _ l =>
  let (d, r1) := takeCls isDigitC l
  if d.isEmpty then none
  else
    let (_, r2) := takeCls isWS r1
    match r2 with
    | c :: r3 =>
      if (c = 'X' || c = 'x' || c = 'Х' || c = 'х') &&
          !(r3.headD ' ' |> isWordC) then some (digitsToNat d)
      else none
    | [] => none

/-- Matcher for `плечо[:\s-]*(\d+)` / `leverage[:\s-]*(\d+)` (the
separator run may be empty). -/
def tryLevLabel (label : Cs) : Option Char → Cs → Option ℕ :=
  fun _ l =>
  match dropLitCI label l with
  | none => none
  | some r1 =>
    let (_, r2) := takeCls sepCls r1
    let (d, _) := takeCls isDigitC r2
    if d.isEmpty then none else some (digitsToNat d)

/-- Matcher for `плечо\s*:\s*(\d+)-(\d+)x`; two groups are averaged with
integer division, as `(min + max) // 2`. -/
def tryLevRangeDash : Option Char → Cs → Option ℕ :=
  fun _ l =>
  match dropLitCI ("плечо").data l with
  | none => none
  | some r1 =>
    let (_, r2) := takeCls isWS r1
    match r2 with
    | ':' :: r3 =>
      let (_, r4) := takeCls isWS r3
      let (d1, r5) := takeCls isDigitC r4
      if d1.isEmpty then none
      else match r5 with
        | '-' :: r6 =>
          let (d2, r7) := takeCls isDigitC r6
          if d2.isEmpty then none
          else match r7 with
            | c :: _ =>
              if charEqCI c 'x' then
                some ((digitsToNat d1 + digitsToNat d2) / 2)
              else none
            | [] => none
        | _ => none
    | _ => none

/-- Matcher for `плечо\s*:\s*(\d+)[\s-]*(\d+)\s*x` and
`leverage\s*:\s*(\d+)[\s-]*(\d+)\s*x`.  When the separator between the
two digit groups is empty the engine backtracks and splits one digit run
so that the second group gets its final digit. -/
def tryLevRangeLoose (label : Cs) : Option Char → Cs → Option ℕ :=
  fun _ l =>
  match dropLitCI label l with
  | none => none
  | some r1 =>
    let (_, r2) := takeCls isWS r1
    match r2 with
    | ':' :: r3 =>
      let (_, r4) := takeCls isWS r3
      let (d1, r5) := takeCls isDigitC r4
      if d1.isEmpty then none
      else
        let (sep, r6) := takeCls (fun c => isWS c || c = '-') r5
        let (d2, r7) := takeCls isDigitC r6
        if !d2.isEmpty then finish (digitsToNat d1) (digitsToNat d2) r7
        else if sep.isEmpty && d1.length ≥ 2 then
          finish (digitsToNat d1.dropLast) (digitsToNat [d1.getLastD '0']) r5
        else none
    | _ => none
where
  finish (n1 n2 : ℕ) (r : Cs) : Option ℕ :=
    let (_, r2) := takeCls isWS r
    match r2 with
    | c :: _ => if charEqCI c 'x' then some ((n1 + n2) / 2) else none
    | [] => none

/-- `AdvancedParser.extract_leverage`: the six patterns in source order,
first match wins. -/
def extract_leverage (text : Cs) : Option ℕ :=
  firstSome
    [reSearch tryLevX text,
     reSearch (tryLevLabel ("плечо").data) text,
     reSearch (tryLevLabel ("leverage").data) text,
     reSearch tryLevRangeDash text,
     reSearch (tryLevRangeLoose ("плечо").data) text,
     reSearch (tryLevRangeLoose ("leverage").data) text]
where
  firstSome : List (Option ℕ) → Option ℕ
  | [] => none
  | some v :: _ => some v
  | none :: rest => firstSome rest

/-! ### Margin extraction

`AdvancedParser.extract_margin`, `advanced_parser.py` lines 537-557. -/

/-- Matcher for `(\d+)\s*%\s*от депозита`. -/
def tryMarDeposit : Option Char → Cs → Option ℚ :=
  fun _ l =>
  let (d, r1) := takeCls isDigitC l
  if d.isEmpty then none
  else
    let (_, r2) := takeCls isWS r1
    match r2 with
    | '%' :: r3 =>
      let (_, r4) := takeCls isWS r3
      if (dropLitCI ("от депозита").data r4).isSome then
        some ((digitsToNat d : ℤ) : ℚ)
      else none
    | _ => none

/-- Matcher for `на\s*(\d+)\s*%`. -/
def tryMarNa : Option Char → Cs → Option ℚ :=
  fun _ l =>
  match dropLitCI ("на").data l with
  | none => none
  | some r1 =>
    let (_, r2) := takeCls isWS r1
    let (d, r3) := takeCls isDigitC r2
    if d.isEmpty then none
    else
      let (_, r4) := takeCls isWS r3
      match r4 with
      | '%' :: _ => some ((digitsToNat d : ℤ) : ℚ)
      | _ => none

/-- Matcher for `маржа[:\s-]*(\d+)\s*%` / `margin[:\s-]*(\d+)\s*%`. -/
def tryMarLabel (label : Cs) : Option Char → Cs → Option ℚ :=
  fun _ l =>
  match dropLitCI label l with
  | none => none
  | some r1 =>
    let (_, r2) := takeCls sepCls r1
    let (d, r3) := takeCls isDigitC r2
    if d.isEmpty then none
    else
      let (_, r4) := takeCls isWS r3
      match r4 with
      | '%' :: _ => some ((digitsToNat d : ℤ) : ℚ)
      | _ => none

/-- `AdvancedParser.extract_margin`: four patterns in source order. -/
def extract_margin (text : Cs) : Option ℚ :=
  firstSome
    [reSearch tryMarDeposit text,
     reSearch tryMarNa text,
     reSearch (tryMarLabel ("маржа").data) text,
     reSearch (tryMarLabel ("margin").data) text]
where
  firstSome : List (Option ℚ) → Option ℚ
  | [] => none
  | some v :: _ => some v
  | none :: rest => firstSome rest

/-! ### Direction extraction

`AdvancedParser.extract_direction`, `advanced_parser.py` lines 376-395.
SHORT takes precedence when both directions are mentioned. -/

/-- Matcher for a word with boundaries on both sides (`\bWORD\b`,
IGNORECASE), used for the buy/sell fallbacks. -/
def tryWordB (w : Cs) : Option Char → Cs → Option Unit :=
  fun prev l =>
  if (match prev with | some c => isWordC c | none => false) then none
  else match dropLitCI w l with
    | some r => if (r.headD ' ' |> isWordC) then none else some ()
    | none => none

def searchWordCI (w : Cs) (text : Cs) : Bool := (reSearch (tryWordB w) text).isSome

def extract_direction (text : Cs) : String :=
  let up := pyUpper text
  if containsSub up ("SHORT").data || containsSub text ['🔽'] ||
      containsSub text ['📉'] || containsSub up ("ШОРТ").data ||
      containsSub text ("SHORT").data then "SHORT"
  else if containsSub up ("LONG").data || containsSub text ['🔼'] ||
      containsSub text ['📈'] || containsSub up ("ЛОНГ").data ||
      containsSub text ("Лонг").data || containsSub text ("лонг").data then "LONG"
  else if searchWordCI ("купить").data text || searchWordCI ("buy").data text then
    "LONG"
  else if searchWordCI ("продать").data text || searchWordCI ("sell").data text then
    "SHORT"
  else "UNKNOWN"

/-! ### Symbol extraction

`AdvancedParser.extract_symbol`, `advanced_parser.py` lines 228-374. -/

/-- The `FORBIDDEN` stop-word set (lines 233-240; the last entry mixes
Latin and Cyrillic letters exactly as in the source). -/
def forbiddenWords : List Cs :=
  (["PUMP", "LONG", "SHORT", "SIGNAL", "ENTRY", "TARGET", "TARGETS",
    "TP", "SL", "STOP", "BUY", "SELL",
    "ТОЧКА", "ВХОД", "ТЕЙК", "ТЕЙКИ", "ЦЕЛИ", "ФИКСАЦИИ", "ДОБОР",
    "МАРЖА", "ПЛЕЧО", "УВЕДОМЛЮ", "КЛАБ", "ПРАЙВАТ", "TG", "ТГ",
    "ЗАКРЫТОЕ", "СООБЩЕСТВО", "PRIVATE", "CLUB",
    "ВХОДА", "TEЙKИ"]).map String.data

def isForbidden (w : Cs) : Bool := forbiddenWords.any (fun f => f = w)

def hasForbiddenSub (w : Cs) : Bool :=
  forbiddenWords.any (fun f => containsSub w f)

/-- Word boundary before the current position: the preceding character
must not be a word character (the patterns below all begin with a word
character). -/
def bdryBefore (prev : Option Char) : Bool :=
  match prev with
  | some c => !isWordC c
  | none => true

/-- Word boundary after a match: the next character must not be a word
character. -/
def bdryAfter (r : Cs) : Bool := !(r.headD ' ' |> isWordC)

/-- Matcher for pattern 1, `\b([A-Za-z0-9]{2,15})\s+(?:SHORT|LONG)\b`
(IGNORECASE).  Only the maximal alphanumeric run can match: shorter
prefixes are followed by an alphanumeric character. -/
def trySymWordDir : Option Char → Cs → Option Cs :=
  fun prev l =>
  if !bdryBefore prev then none
  else
    let (run, r1) := takeCls isAlnumEn l
    if run.length < 2 || 15 < run.length then none
    else
      let (ws, r2) := takeCls isWS r1
      if ws.isEmpty then none
      else
        match (dropLitCI ("short").data r2).orElse
            (fun _ => dropLitCI ("long").data r2) with
        | some r3 => if bdryAfter r3 then some run else none
        | none => none

/-- Matcher for patterns 2/3, `\b([A-Z]{2,10})SEP([A-Z]{3,5})\b` with a
`/` or `-` separator (IGNORECASE); the group keeps the separator. -/
def trySymPair (sepChar : Char) : Option Char → Cs → Option Cs :=
  fun prev l =>
  if !bdryBefore prev then none
  else
    let (a, r1) := takeCls isAlphaEn l
    if a.length < 2 || 10 < a.length then none
    else match r1 with
      | c :: r2 =>
        if c = sepChar then
          let (b, r3) := takeCls isAlphaEn r2
          if 3 ≤ b.length && b.length ≤ 5 && bdryAfter r3 then
            some (a ++ c :: b)
          else none
        else none
      | [] => none

/-- Matcher for patterns 4/5/9, `MARK\s*([A-Z]{2,10})\b` where MARK is
`$` or `#` (`\$([A-Z]{2,10})\b`, `#([A-Z]{2,10})\b`,
`\$\s*([A-Z]{2,10})\b`); `wsAllowed` distinguishes pattern 9. -/
def trySymMark (mark : Char) (wsAllowed : Bool) :
    Option Char → Cs → Option Cs :=
  fun _ l =>
  match l with
  | c :: r1 =>
    if c = mark then
      let r2 := if wsAllowed then (takeCls isWS r1).2 else r1
      let (a, r3) := takeCls isAlphaEn r2
      if 2 ≤ a.length && a.length ≤ 10 && bdryAfter r3 then some a else none
    else none
  | [] => none

/-- Matcher for pattern 6, `\b([A-Z]{2,10}USDT)\b` (IGNORECASE): a pure
letter run of length 6-14 ending in `usdt`. -/
def trySymUsdt : Option Char → Cs → Option Cs :=
  fun prev l =>
  if !bdryBefore prev then none
  else
    let (a, r1) := takeCls isAlphaEn l
    if 6 ≤ a.length && a.length ≤ 14 && bdryAfter r1 &&
        pyLower (a.drop (a.length - 4)) = ("usdt").data then some a
    else none

/-- Matcher for pattern 7, `(\d+[A-Z]{2,10})\s+(?:SHORT|LONG)`
(IGNORECASE, no boundaries). -/
def trySymNumPre : Option Char → Cs → Option Cs :=
  fun _ l =>
  let (d, r1) := takeCls isDigitC l
  if d.isEmpty then none
  else
    let (a, r2) := takeCls isAlphaEn r1
    if a.length < 2 || 10 < a.length then none
    else
      let (ws, r3) := takeCls isWS r2
      if ws.isEmpty then none
      else if ((dropLitCI ("short").data r3).orElse
          (fun _ => dropLitCI ("long").data r3)).isSome then some (d ++ a)
      else none

/-- Matcher for pattern 8, `🎤([A-Z]+/[A-Z]+)` (IGNORECASE). -/
def trySymMic : Option Char → Cs → Option Cs :=
  fun _ l =>
  match l with
  | '🎤' :: r1 =>
    let (a, r2) := takeCls isAlphaEn r1
    if a.isEmpty then none
    else match r2 with
      | '/' :: r3 =>
        let (b, _) := takeCls isAlphaEn r3
        if b.isEmpty then none else some (a ++ '/' :: b)
      | _ => none
  | _ => none

/-- Matcher for pattern 10, `\b([A-Z]{2,10})\s*$` (IGNORECASE; `$` is
the end of the whole text). -/
def trySymEol : Option Char → Cs → Option Cs :=
  fun prev l =>
  if !bdryBefore prev then none
  else
    let (a, r1) := takeCls isAlphaEn l
    if a.length < 2 || 10 < a.length then none
    else
      let (_, r2) := takeCls isWS r1
      if r2.isEmpty then some a else none

/-- Python `re.match(r'^\d+[A-Z]+$', symbol)` on the already
upper-cased candidate. -/
def isDigitsThenLetters (l : Cs) : Bool :=
  let d := l.takeWhile isDigitC
  let rest := l.dropWhile isDigitC
  !d.isEmpty && !rest.isEmpty && rest.all isUpperAZ

/-- Shared post-processing of a main-pattern group (lines 266-284):
upper-case, drop `/` and `-`, strip a leveraged-token digit prefix,
append `USDT` for short symbols, and reject stop words (`none` sends
the loop to the next pattern). -/
def symPostProcess (group : Cs) : Option Cs :=
  let s1 := (pyUpper group).filter (fun c => c ≠ '/' && c ≠ '-')
  let s2 := if isDigitsThenLetters s1 then s1.dropWhile isDigitC else s1
  let s3 := if !endsWithL s2 ("USDT").data && s2.length ≤ 10 then
      s2 ++ ("USDT").data else s2
  if isForbidden (parserNormalizeSymbol s3) then none else some s3

/-- The main pattern loop of `extract_symbol` (lines 250-284). -/
def extractSymbolMain (text : Cs) : Option Cs :=
  go [reSearch trySymWordDir text,
      reSearch (trySymPair '/') text,
      reSearch (trySymPair '-') text,
      reSearch (trySymMark '$' false) text,
      reSearch (trySymMark '#' false) text,
      reSearch trySymUsdt text,
      reSearch trySymNumPre text,
      reSearch trySymMic text,
      reSearch (trySymMark '$' true) text,
      reSearch trySymEol text]
where
  go : List (Option Cs) → Option Cs
  | [] => none
  | none :: rest => go rest
  | some g :: rest =>
    match symPostProcess g with
    | some s => some s
    | none => go rest

/-- The stripped nonempty lines of the text (line 246). -/
def textLines (text : Cs) : List Cs :=
  ((splitOnChar '\n' text).map pyStrip).filter (fun l => !l.isEmpty)

/-- Fallback 2 (lines 287-304): a word immediately before a bare
LONG/SHORT token in the first six lines. -/
def symFallbackDir (text : Cs) : Option Cs :=
  goLines ((textLines text).take 6)
where
  goWords : Option Cs → List Cs → Option Cs
  | _, [] => none
  | prevW, w :: rest =>
    if w = ("LONG").data ∨ w = ("SHORT").data then
      match prevW with
      | some pw =>
        let cand := (parserNormalizeSymbol pw).dropWhile isDigitC
        if 2 ≤ cand.length && cand.length ≤ 15 && !isForbidden cand &&
            !hasForbiddenSub cand then some (cand ++ ("USDT").data)
        else goWords (some w) rest
      | none => goWords (some w) rest
    else goWords (some w) rest
  goLines : List Cs → Option Cs
  | [] => none
  | line :: rest =>
    match goWords none (splitOnClass isWS (pyUpper line)) with
    | some s => some s
    | none => goLines rest

/-- Maximal word-character runs of a line (used to model
`re.findall(r'\b[CLASS]{m,n}\b', line)`: a run matches only when it
consists entirely of the class and its length is in range). -/
def wordRuns (l : Cs) : List Cs :=
  go [] l
where
  go (cur : Cs) : Cs → List Cs
  | [] => if cur.isEmpty then [] else [cur.reverse]
  | c :: t =>
    if isWordC c then go (c :: cur) t
    else if cur.isEmpty then go [] t
    else cur.reverse :: go [] t

/-- The trading-context terms of fallback 3 (lines 323-327). -/
def contextTerms : List Cs :=
  (["ENTRY", "TP", "SL", "STOP", "TAKE", "PROFIT",
    "ТОЧКА", "ТЕЙК", "СТОП", "ЦЕЛЬ", "ВХОД"]).map String.data

/-- Fallback 3 (lines 307-332): any 2-15 character alphanumeric token in
the first three lines, accepted only when the line shows trading
vocabulary. -/
def symFallbackContext (text : Cs) : Option Cs :=
  goLines ((textLines text).take 3)
where
  goWords (lineUp : Cs) : List Cs → Option Cs
  | [] => none
  | w :: rest =>
    let cand := (parserNormalizeSymbol w).dropWhile isDigitC
    if 2 ≤ cand.length && cand.length ≤ 10 && !isForbidden cand &&
        !pyIsDigitStr cand && !hasForbiddenSub cand &&
        contextTerms.any (fun t => containsSub lineUp t) then
      some (cand ++ ("USDT").data)
    else goWords lineUp rest
  goLines : List Cs → Option Cs
  | [] => none
  | line :: rest =>
    let words := (wordRuns line).filter
      (fun r => r.all isAlnumEn && 2 ≤ r.length && r.length ≤ 15)
    match goWords (pyUpper line) words with
    | some s => some s
    | none => goLines rest

/-- Matcher for fallback 4, `[#\$]([A-Z0-9]{2,15})\b` over the
upper-cased text (case-sensitive). -/
def trySymHash : Option Char → Cs → Option Cs :=
  fun _ l =>
  match l with
  | c :: r1 =>
    if c = '#' || c = '$' then
      let (a, r2) := takeCls (fun c => isUpperAZ c || isDigitC c) r1
      if 2 ≤ a.length && a.length ≤ 15 && bdryAfter r2 then some a else none
    else none
  | [] => none

/-- Fallback 4 (lines 334-342): hashtag or dollar tag anywhere in the
upper-cased text. -/
def symFallbackHash (text : Cs) : Option Cs :=
  match reSearch trySymHash (pyUpper text) with
  | some g =>
    let cand := parserNormalizeSymbol g
    if !cand.isEmpty && !isForbidden cand then
      some (if endsWithL cand ("USDT").data then cand
            else cand ++ ("USDT").data)
    else none
  | none => none

/-- Fallback 5 (lines 344-355): the pattern-1 regex again, with the
lighter stop-word check of this fallback. -/
def symFallbackRegex (text : Cs) : Option Cs :=
  match reSearch trySymWordDir text with
  | some g =>
    let cand := (parserNormalizeSymbol g).dropWhile isDigitC
    if !cand.isEmpty && !isForbidden cand then some (cand ++ ("USDT").data)
    else none
  | none => none

/-- The common English words excluded by fallback 6 (line 364). -/
def commonWords : List Cs :=
  (["THE", "AND", "FOR", "ARE", "NOT", "ALL", "BUT", "FROM",
    "WITH"]).map String.data

/-- Fallback 6 (lines 357-371): the first ticker-like pure-letter word
of the first two lines. -/
def symFallbackFirstWord (text : Cs) : Option Cs :=
  goLines ((textLines text).take 2)
where
  goWords : List Cs → Option Cs
  | [] => none
  | w :: rest =>
    if !isForbidden w && 2 ≤ w.length && w.length ≤ 10 &&
        !commonWords.any (fun c => c = w) then some (w ++ ("USDT").data)
    else goWords rest
  goLines : List Cs → Option Cs
  | [] => none
  | line :: rest =>
    let words := (wordRuns (pyUpper line)).filter
      (fun r => r.all isUpperAZ && 2 ≤ r.length && r.length ≤ 10)
    match goWords words with
    | some s => some s
    | none => goLines rest

/-- `AdvancedParser.extract_symbol`: the main pattern loop followed by
the six fallbacks, `UNKNOWN` when everything fails. -/
def extract_symbol (text : Cs) : String :=
  match firstSome
      [extractSymbolMain text,
       symFallbackDir text,
       symFallbackContext text,
       symFallbackHash text,
       symFallbackRegex text,
       symFallbackFirstWord text] with
  | some s => String.mk s
  | none => "UNKNOWN"
where
  firstSome : List (Option Cs) → Option Cs
  | [] => none
  | some v :: _ => some v
  | none :: rest => firstSome rest

/-! ### Take-profit block extraction

`AdvancedParser.extract_take_profits_block` and
`parse_take_profits_from_block`, `advanced_parser.py` lines 34-226. -/

/-- `TAKE_PROFIT_KEYWORDS` (lines 35-39), in source order. -/
def tpKeywords : List Cs :=
  (["тейк", "take profit", "тейки", "take profits", "тейк-профит",
    "цель", "цели", "target", "targets", "tp", "тп",
    "goals", "take", "профит", "profit", "🎯", "👑", "✅"]).map String.data

/-- `BLOCK_END_KEYWORDS` (lines 42-46). -/
def blockEndKeywords : List Cs :=
  (["стоп", "stop", "стоп-лосс", "stop loss", "stoploss",
    "вход", "entry", "маржа", "margin", "леверидж", "leverage",
    "риск", "risk", "📊", "🚫", "❌"]).map String.data

/-- Position of the first match of `\bKEYWORD[\s:—-]*` (IGNORECASE).
The `\b` compares the word-character status of the keyword's first
character with that of the preceding character; for the emoji keywords
this means a preceding word character is required. -/
def findKwPos (kw : Cs) (text : Cs) : Option ℕ :=
  go none text 0
where
  go : Option Char → Cs → ℕ → Option ℕ
  | _, [], _ => none
  | prev, c :: rest, i =>
    let w := isWordC (kw.headD ' ')
    let bdry := match prev with
      | none => w
      | some c => isWordC c ≠ w
    if bdry && isPreCI kw (c :: rest) then some i
    else go (some c) rest (i + 1)

/-- First keyword of the list that matches anywhere in the text
(the source loops over keywords, not positions). -/
def findFirstKw (kws : List Cs) (text : Cs) : Option (ℕ × Cs) :=
  match kws with
  | [] => none
  | kw :: rest =>
    match findKwPos kw text with
    | some p => some (p, kw)
    | none => findFirstKw rest text

/-- Running minimum over the found positions of a list of plain
substring searches (`text.find(needle, start)`), as the source's
sequential `if pos != -1 and pos < end_pos` updates behave. -/
def foldEndPos (hay : Cs) (needles : List Cs) (start : ℕ) (init : ℕ) : ℕ :=
  needles.foldl
    (fun acc n =>
      match posFind hay n start with
      | some p => if p < acc then p else acc
      | none => acc)
    init

/-- First-found (not minimal) end keyword of the Nesterov special
end branch (lines 110-117, with `break`).  Unreachable: its guard at
line 110 tests the CAPITALIZED literal `По целям:` against the
lowercased text, which can never hold a capital `П`. -/
def firstFoundPos (hay : Cs) (needles : List Cs) (start : ℕ) : Option ℕ :=
  match needles with
  | [] => none
  | n :: rest =>
    match posFind hay n start with
    | some p => some p
    | none => firstFoundPos hay rest start

/-- The structural end markers (line 129) searched in the original text
from the block start (`ℹ️` and `➡️` are two code points each). -/
def endMarkers : List Cs :=
  (["\n", "•", "📈", "📊", "ℹ️", "➡️"]).map String.data

/-- Removal of the start keyword and its punctuation tail
(`re.sub(f'{escaped}[\\s\\:\\-—]*', '', block, 1)`, IGNORECASE). -/
def subKwOnce (kw block : Cs) : Cs :=
  match posFind (pyLower block) (pyLower kw) 0 with
  | some p =>
    block.take p ++
      ((block.drop (p + kw.length)).dropWhile
        (fun c => isWS c || c = ':' || c = '-' || c = '—'))
  | none => block

/-- `AdvancedParser.extract_take_profits_block` (lines 69-148).  The
START search has a live special branch for `по целям:` (line 81 tests
the lowercase phrase); the END search's special branch is guarded by
line 110's `if 'По целям:' in text_lower`, which compares the
CAPITALIZED literal against the lowercased text and is always false,
so the generic `BLOCK_END_KEYWORDS` running minimum always runs. -/
def extract_take_profits_block (text : Cs) : Option Cs :=
  let textLower := pyLower text
  let special := containsSub textLower ("по целям:").data
  let start? : Option (ℕ × Cs) :=
    if special then
      (posFind textLower ("по целям:").data 0).map
        (fun p => (p, ("По целям:").data))
    else findFirstKw tpKeywords text
  match start? with
  | none => none
  | some (startPos, kw) =>
    let e1 :=
      if containsSub textLower ("По целям:").data then
        match firstFoundPos textLower
            ((["стоп", "stop", "сл", "stoploss"]).map String.data)
            (startPos + kw.length) with
        | some p => if p < text.length then p else text.length
        | none => text.length
      else
        foldEndPos textLower blockEndKeywords (startPos + kw.length) text.length
    let endPos := foldEndPos text endMarkers startPos e1
    let block := pyStrip ((text.drop startPos).take (endPos - startPos))
    let block := subKwOnce kw block
    some (block.dropWhile (fun c => c = ':' || c = '-' || c = '—' || isWS c))

/-- The digit-comma-digit decimal rewrite
(`re.sub(r'(\d),(\d)', r'\1.\2', block)`, non-overlapping). -/
def replDigitComma : Cs → Cs
  | [] => []
  | [a] => [a]
  | [a, b] => [a, b]
  | a :: b :: c :: rest =>
    if isDigitC a && b = ',' && isDigitC c then
      a :: '.' :: c :: replDigitComma rest
    else a :: replDigitComma (b :: c :: rest)

/-- Collapse whitespace runs to single spaces
(`re.sub(r'\s+', ' ', ...)`). -/
def collapseWS (l : Cs) : Cs :=
  go false l
where
  go (inRun : Bool) : Cs → Cs
  | [] => []
  | c :: t =>
    if isWS c then
      if inRun then go true t else ' ' :: go true t
    else c :: go false t

/-- Token test `^(\d+\.?\d*)$` of the generic take-profit tokenizer. -/
def matchesNumToken (t : Cs) : Bool :=
  let d := t.takeWhile isDigitC
  let r := t.dropWhile isDigitC
  !d.isEmpty &&
    (r.isEmpty || (r.headD ' ' = '.' && r.tail.all isDigitC))

/-- `AdvancedParser.parse_take_profits_from_block` (lines 150-213):
first the comma-separated branch, then the generic tokenizer. -/
def parse_take_profits_from_block (block : Cs) : List ℚ :=
  if block.isEmpty then []
  else
    let b := replDigitComma block
    let commaBranch :=
      if containsSub b (", ").data || containsSub b (" ,").data ||
          countChar ',' b ≥ 2 then
        ((splitOnChar ',' b).map pyStrip).foldl
          (fun acc part =>
            let clean := part.filter (fun c => isDigitC c || c = '.')
            if clean.isEmpty then acc
            else match pyFloat? clean with
              | some v => acc ++ [v]
              | none => acc)
          []
      else []
    if !commaBranch.isEmpty then commaBranch
    else
      let keep (c : Char) : Bool :=
        isDigitC c || isWS c || c = '.' || c = '-' || c = '/' ||
          c = '|' || c = '—' || c = ','
      let cleaned := pyStrip (collapseWS (b.map (fun c => if keep c then c else ' ')))
      let splitCls (c : Char) : Bool :=
        isWS c || c = '—' || c = '-' || c = '/' || c = ',' || c = '|'
      (splitOnClass splitCls cleaned).foldl
        (fun acc tok =>
          if matchesNumToken tok then
            match pyFloat? tok with
            | some v => acc ++ [v]
            | none => acc
          else acc)
        []

/-- `AdvancedParser.parse_take_profits` (lines 214-226). -/
def parse_take_profits (text : Cs) : List ℚ :=
  match extract_take_profits_block text with
  | some b => parse_take_profits_from_block b
  | none => []

/-! ### Number-run scanners shared by several extractors -/

/-- Decimal comma to decimal point. -/
def commaDot (c : Char) : Char := if c = ',' then '.' else c

/-- Matcher for `\d+\.\d+` (exact dot). -/
def tryDecDot : Option Char → Cs → Option (Cs × Char × Cs) :=
  fun _ l =>
  let (d1, r1) := takeCls isDigitC l
  if d1.isEmpty then none
  else match r1 with
    | '.' :: r2 =>
      let (d2, r3) := takeCls isDigitC r2
      if d2.isEmpty then none else some (d1 ++ '.' :: d2, lastD d2, r3)
    | _ => none

/-- Matcher for `\d+[.,]\d+` (dot or comma). -/
def tryDecCommaDot : Option Char → Cs → Option (Cs × Char × Cs) :=
  fun _ l =>
  let (d1, r1) := takeCls isDigitC l
  if d1.isEmpty then none
  else match r1 with
    | s :: r2 =>
      if s = '.' ∨ s = ',' then
        let (d2, r3) := takeCls isDigitC r2
        if d2.isEmpty then none else some (d1 ++ s :: d2, lastD d2, r3)
      else none
    | [] => none

/-- Matcher for `[\d]+\.?[\d]*` (digits with an optional fraction). -/
def tryDecOptFrac : Option Char → Cs → Option (Cs × Char × Cs) :=
  fun _ l =>
  let (d1, r1) := takeCls isDigitC l
  if d1.isEmpty then none
  else match r1 with
    | '.' :: r2 =>
      let (d2, r3) := takeCls isDigitC r2
      some (d1 ++ '.' :: d2, (if d2.isEmpty then '.' else lastD d2), r3)
    | _ => some (d1, lastD d1, r1)

/-- Matcher for a maximal nonempty `[\d.,]+` run. -/
def tryNumRun : Option Char → Cs → Option (Cs × Char × Cs) :=
  fun _ l =>
  let (v, r) := takeCls numCls l
  if v.isEmpty then none else some (v, lastD v, r)

/-! ### Source-specific extraction

`AdvancedParser.detect_source_specific_pattern`, `advanced_parser.py`
lines 559-708. -/

structure SourceSpecific where
  entry_prices : Option (List ℚ) := none
  take_profits : Option (List ℚ) := none
  limit_prices : Option (List ℚ) := none
  stop_loss : Option ℚ := none
deriving Repr, DecidableEq

/-- Matcher for `Твх:\s*([\d.,-]+)` (case-sensitive). -/
def tryTvx : Option Char → Cs → Option (Cs × Char × Cs) :=
  fun _ l =>
  match dropLit ("Твх:").data l with
  | none => none
  | some r1 =>
    let (_, r2) := takeCls isWS r1
    let (v, r3) := takeCls (fun c => isDigitC c || c = '.' || c = ',' || c = '-') r2
    if v.isEmpty then none else some (v, lastD v, r3)

/-- Nesterov entry prices (lines 568-581): only a dash range sets the
field; parts failing `float` are skipped individually. -/
def nesterovEntry (text : Cs) : Option (List ℚ) :=
  match reSearch tryTvx text with
  | some (cap, _, _) =>
    if containsSub cap ['-'] then
      some ((splitOnChar '-' cap).foldl
        (fun acc p =>
          let pc := (pyStrip p).map commaDot
          if pc.isEmpty then acc
          else match pyFloat? pc with
            | some v => acc ++ [v]
            | none => acc)
        [])
    else none
  | none => none

/-- The lookahead `(?=\s*Стоп:|\s*$)` of the Nesterov take-profit
pattern. -/
def lookStopOrEnd (s : Cs) : Bool :=
  let r := s.dropWhile isWS
  r.isEmpty || isPre ("Стоп:").data r

/-- Minimal end of the lazy group `(.+?)` before the lookahead holds
(the group consumes at least one character). -/
def findLazyEnd : ℕ → Cs → ℕ
  | k, [] => k
  | k, s@(_ :: t) => if lookStopOrEnd s then k else findLazyEnd (k + 1) t

/-- Nesterov take profits (lines 583-616): the span after `По целям:`
up to `Стоп:` or the end, numbers via `\d+\.\d+` on the comma-replaced
span, falling back to `[\d]+\.?[\d]*` on the raw span. -/
def nesterovTps (text : Cs) : Option (List ℚ) :=
  match posFind text ("По целям:").data 0 with
  | none => none
  | some p =>
    let after := text.drop (p + 9)
    let content := after.dropWhile isWS
    if content.isEmpty then none
    else
      let j := findLazyEnd 1 (content.drop 1)
      let tpStr := pyStrip (content.take j)
      let nums := (reFindAll tryDecDot (tpStr.map commaDot)).foldl
        (fun acc c => match pyFloat? c with
          | some v => acc ++ [v]
          | none => acc) []
      let nums :=
        if nums.isEmpty then
          (reFindAll tryDecOptFrac tpStr).foldl
            (fun acc c => match pyFloat? (c.map commaDot) with
              | some v => acc ++ [v]
              | none => acc) []
        else nums
      if nums.isEmpty then none else some nums

/-- Matcher for the Nesterov `Стоп:\s*([\d.,]+)` (case-sensitive). -/
def tryNestStop : Option Char → Cs → Option (Cs × Char × Cs) :=
  fun _ l =>
  match dropLit ("Стоп:").data l with
  | none => none
  | some r1 =>
    let (_, r2) := takeCls isWS r1
    let (v, r3) := takeCls numCls r2
    if v.isEmpty then none else some (v, lastD v, r3)

def detectNesterov (text : Cs) : SourceSpecific :=
  { entry_prices := nesterovEntry text,
    take_profits := nesterovTps text,
    stop_loss :=
      match reSearch tryNestStop text with
      | some (cap, _, _) => pyFloat? (cap.map commaDot)
      | none => none }

/-- Matcher for `Точка входа:\s*([\d.,]+)` (IGNORECASE), per line. -/
def tryPcEntry : Option Char → Cs → Option (Cs × Char × Cs) :=
  fun _ l =>
  match dropLitCI ("точка входа:").data l with
  | none => none
  | some r1 =>
    let (_, r2) := takeCls isWS r1
    let (v, r3) := takeCls numCls r2
    if v.isEmpty then none else some (v, lastD v, r3)

/-- Private-club entry price: first line whose match also converts
(lines 629-637; a `ValueError` keeps scanning). -/
def pcEntry : List Cs → Option (List ℚ)
  | [] => none
  | line :: rest =>
    match reSearch tryPcEntry line with
    | some (cap, _, _) =>
      match pyFloat? (cap.map commaDot) with
      | some v => some [v]
      | none => pcEntry rest
    | none => pcEntry rest

def pcEndKeywords : List Cs :=
  (["закрытое", "стоп", "вход", "плечо", "маржа"]).map String.data

/-- Private-club vertical target list (lines 639-662): lines after one
containing `цели`, stopping at the next section. -/
def pcTps : Bool → List Cs → List ℚ
  | _, [] => []
  | inSec, line :: rest =>
    let ll := pyLower line
    if containsSub ll ("цели").data then pcTps true rest
    else if inSec then
      if pcEndKeywords.any (fun k => containsSub ll k) then []
      else
        match reSearch tryNumRun line with
        | some (cap, _, _) =>
          (match pyFloat? (cap.map commaDot) with
            | some v => [v]
            | none => []) ++ pcTps true rest
        | none => pcTps true rest
    else pcTps false rest

def detectPrivateClub (text : Cs) : SourceSpecific :=
  let lines := splitOnChar '\n' text
  let tps := pcTps false lines
  { entry_prices := pcEntry lines,
    take_profits := if tps.isEmpty then none else some tps }

/-- Matcher for `✅Тейки:\s*([\d.,\s—]+)` (case-sensitive); the capture
class itself admits whitespace. -/
def tryFin : Option Char → Cs → Option (Cs × Char × Cs) :=
  fun _ l =>
  match dropLit ("✅Тейки:").data l with
  | none => none
  | some r1 =>
    let (v, r2) := takeCls
      (fun c => isDigitC c || c = '.' || c = ',' || c = '—' || isWS c) r1
    if v.isEmpty then none else some (v, lastD v, r2)

def detectFinancier (text : Cs) : SourceSpecific :=
  match reSearch tryFin text with
  | some (cap, _, _) =>
    let tps := (reFindAll tryNumRun cap).foldl
      (fun acc c =>
        let pc := (pyStrip c).map commaDot
        if pc.isEmpty then acc
        else match pyFloat? pc with
          | some v => acc ++ [v]
          | none => acc) []
    { take_profits := if tps.isEmpty then none else some tps }
  | none => {}

/-- Matcher for `Вход: Рынок и лимитка - ([\d.,]+)` (case-sensitive). -/
def tryCryptoFut : Option Char → Cs → Option (Cs × Char × Cs) :=
  fun _ l =>
  match dropLit ("Вход: Рынок и лимитка - ").data l with
  | none => none
  | some r1 =>
    let (v, r2) := takeCls numCls r1
    if v.isEmpty then none else some (v, lastD v, r2)

def detectCryptoFutures (text : Cs) : SourceSpecific :=
  match reSearch tryCryptoFut text with
  | some (cap, _, _) =>
    match pyFloat? (cap.map commaDot) with
    | some v => { entry_prices := some [v], limit_prices := some [v] }
    | none => {}
  | none => {}

/-- Matcher for `Точка входа: ~([\d.,]+)\$` (case-sensitive). -/
def tryMagicEntry : Option Char → Cs → Option (Cs × Char × Cs) :=
  fun _ l =>
  match dropLit ("Точка входа: ~").data l with
  | none => none
  | some r1 =>
    let (v, r2) := takeCls numCls r1
    if v.isEmpty then none
    else match r2 with
      | '$' :: r3 => some (v, '$', r3)
      | _ => none

/-- Matcher for a `[\d.,]+` run directly followed by `$`. -/
def tryNumDollar : Option Char → Cs → Option (Cs × Char × Cs) :=
  fun _ l =>
  let (v, r) := takeCls numCls l
  if v.isEmpty then none
  else match r with
    | '$' :: r2 => some (v, '$', r2)
    | _ => none

/-- Matcher for `лимитный ордер.*?([\d.,]+)\$` (lazy, `.` does not cross
a newline). -/
def tryMagicLimit : Option Char → Cs → Option (Cs × Char × Cs) :=
  fun _ l =>
  match dropLit ("лимитный ордер").data l with
  | none => none
  | some r1 =>
    let sameLine := r1.takeWhile (fun c => c ≠ '\n')
    match reSearch tryNumDollar sameLine with
    | some (cap, c, _) => some (cap, c, r1)
    | none => none

def detectMagic (text : Cs) : SourceSpecific :=
  { entry_prices :=
      match reSearch tryMagicEntry text with
      | some (cap, _, _) =>
        match pyFloat? (cap.map commaDot) with
        | some v => some [v]
        | none => none
      | none => none,
    limit_prices :=
      match reSearch tryMagicLimit text with
      | some (cap, _, _) =>
        match pyFloat? (cap.map commaDot) with
        | some v => some [v]
        | none => none
      | none => none }

/-- `AdvancedParser.detect_source_specific_pattern`: dispatch on the
source label. -/
def detect_source_specific_pattern (text source : Cs) : SourceSpecific :=
  if containsSub source ("Nesterov").data ||
      containsSub source ("Family").data then detectNesterov text
  else if containsSub (pyLower source) ("прайват клаб").data ||
      containsSub (pyLower source) ("прайват").data then detectPrivateClub text
  else if containsSub source ("Финансист").data ||
      containsSub source ("Шеф").data then detectFinancier text
  else if containsSub source ("CryptoFutures").data then
    detectCryptoFutures text
  else if containsSub source ("MAGIC/USDT").data ||
      containsSub source ("MAGIC").data then detectMagic text
  else {}

/-! ### parse_signal

`AdvancedParser.parse_signal`, `advanced_parser.py` lines 710-885. -/

/-- Market-order vocabulary (line 776). -/
def marketKeywords : List Cs :=
  (["по рынку", "market", "маркет", "рынок", "market("]).map String.data

/-- The private-club symbol fallback inside `parse_signal`
(lines 730-752): the alphanumeric word before a bare SHORT/LONG in the
first three raw lines. -/
def privateClubSymbolFallback (text : Cs) : Option Cs :=
  goLines ((splitOnChar '\n' text).take 3)
where
  goWords : Option Cs → List Cs → Option Cs
  | _, [] => none
  | prevW, w :: rest =>
    if w = ("SHORT").data ∨ w = ("LONG").data then
      match prevW with
      | some cand =>
        if !pyIsDigitStr cand && cand.length ≥ 2 then
          let clean := cand.dropWhile isDigitC
          if 2 ≤ clean.length && clean.length ≤ 10 then
            some (clean ++ ("USDT").data)
          else goWords (some w) rest
        else goWords (some w) rest
      | none => goWords (some w) rest
    else goWords (some w) rest
  goLines : List Cs → Option Cs
  | [] => none
  | line :: rest =>
    let lu := pyUpper line
    if containsSub lu ("SHORT").data || containsSub lu ("LONG").data then
      match goWords none ((wordRuns lu).filter (fun r => r.all isAlnumEn)) with
      | some s => some s
      | none => goLines rest
    else goLines rest

/-- The direction-consistency filter applied once entry and targets are
known (lines 803-824): for SHORT keep targets strictly below the entry,
sorted descending; for LONG strictly above, ascending; any other
direction is left untouched. -/
def dirFilter (dir : String) (e : ℚ) (tps : List ℚ) : List ℚ :=
  if dir = "SHORT" then sortDesc (tps.filter (fun t => t < e))
  else if dir = "LONG" then sortAsc (tps.filter (fun t => e < t))
  else tps

/-- The minimum-distance test of the post-filter (lines 847-856):
`abs(tp - entry) / entry * 100 >= 0.5` on the profitable side.  Rational
division is total with `x / 0 = 0`; in Python an entry of `0` would
raise instead, which is unreachable from `extract_entry_prices` (its
epsilon filter keeps only values above `0.001`). -/
def tpPass (dir : String) (e tp : ℚ) : Bool :=
  (dir = "SHORT" && tp < e && qMul (qDiv (qAbs (qSub tp e)) e) 100 ≥ mkRat 1 2) ||
  (dir = "LONG" && e < tp && qMul (qDiv (qAbs (qSub tp e)) e) 100 ≥ mkRat 1 2)

/-- The close-target post-filter (lines 842-868).  Note the source only
REPLACES `take_profits` when the filtered list is nonempty and its
length differs from the original: if every target is within the 0.5%
threshold the original list is kept unchanged. -/
def closeFilter (dir : String) (e : ℚ) (tps : List ℚ) : List ℚ :=
  let f := tps.filter (tpPass dir e)
  if !f.isEmpty then
    if f.length ≠ tps.length then
      if dir = "SHORT" then sortDesc f else sortAsc f
    else tps
  else tps

/-- The `Two Fingers` leverage refinement (lines 831-840): re-search
`(\d+)[\s-]*(\d+)\s*x` and average the bounds. -/
def tryTwoFingersRange : Option Char → Cs → Option ℕ :=
  fun _ l =>
  let (d1, r1) := takeCls isDigitC l
  if d1.isEmpty then none
  else
    let (sep, r2) := takeCls (fun c => isWS c || c = '-') r1
    let (d2, r3) := takeCls isDigitC r2
    if !d2.isEmpty then finish (digitsToNat d1) (digitsToNat d2) r3
    else if sep.isEmpty && d1.length ≥ 2 then
      finish (digitsToNat d1.dropLast) (digitsToNat [d1.getLastD '0']) r1
    else none
where
  finish (n1 n2 : ℕ) (r : Cs) : Option ℕ :=
    let (_, r2) := takeCls isWS r
    match r2 with
    | c :: _ => if charEqCI c 'x' then some ((n1 + n2) / 2) else none
    | [] => none

/-- `AdvancedParser.parse_signal` (lines 710-885).  `now` stands for
`time.time()` at parse time. -/
def parse_signal (text source : String) (now : ℚ) : TradeSignal :=
  let t := text.data
  let src := source.data
  let sym0 := extract_symbol t
  let sym1 :=
    if sym0 = "UNKNOWN" &&
        (containsSub (pyLower src) ("прайват клаб").data ||
         containsSub (pyLower src) ("private club").data) then
      match privateClubSymbolFallback t with
      | some s => String.mk s
      | none => sym0
    else sym0
  let dir := extract_direction t
  let entry0 := extract_entry_prices t
  let limit0 := extract_limit_prices t
  let tps0 := parse_take_profits t
  let stop0 := extract_stop_loss t
  let lev0 := extract_leverage t
  let mar0 := extract_margin t
  let isMkt := marketKeywords.any (fun k => containsSub (pyLower t) k)
  let sp := detect_source_specific_pattern t src
  let entry1 := match sp.entry_prices with
    | some l => if !l.isEmpty && entry0.isEmpty then l else entry0
    | none => entry0
  let tps1 := match sp.take_profits with
    | some l => if !l.isEmpty then l else tps0
    | none => tps0
  let stop1 := match sp.stop_loss with
    | some v => if v ≠ 0 then some v else stop0
    | none => stop0
  let limit1 := match sp.limit_prices with
    | some l => if !l.isEmpty then l else limit0
    | none => limit0
  let tps2 := if !entry1.isEmpty && !tps1.isEmpty then
      dirFilter dir entry1.headI tps1
    else tps1
  let entry2 := if containsSub src ("CryptoFutures").data &&
      !limit1.isEmpty && entry1.isEmpty then limit1 else entry1
  let lev1 := if containsSub src ("Two Fingers").data && lev0 = some 50 then
      match reSearch tryTwoFingersRange t with
      | some v => some v
      | none => lev0
    else lev0
  let tps3 := if !entry2.isEmpty && !tps2.isEmpty then
      closeFilter dir entry2.headI tps2
    else tps2
  { symbol := sym1, direction := dir, entry_prices := entry2,
    limit_prices := limit1, take_profits := tps3, stop_loss := stop1,
    leverage := lev1, margin := mar0, source := source, timestamp := now,
    is_market := isMkt, original_text := text }

/-- `parse_khrustalev` delegates to the common parser
(`advanced_parser.py` lines 916-917). -/
def parse_khrustalev (text source : String) (now : ℚ) : TradeSignal :=
  parse_signal text source now

/-! ### The validator (claim C5)

`TelethonTradingBot.has_concrete_trading_data` and
`is_valid_trading_signal`, `telethon_bot.py` lines 486-540. -/

/-- Matcher for `\d+[.,]\d+\s*\$` (a decimal price with a dollar
suffix). -/
def tryHcDollar : Option Char → Cs → Option Unit :=
  fun prev l =>
  match tryDecCommaDot prev l with
  | some (_, _, r) =>
    let (_, r2) := takeCls isWS r
    match r2 with
    | '$' :: _ => some ()
    | _ => none
  | none => none

/-- Matcher for `[TТ][PП]\d*\s*:?\s*\d+[.,]\d+` (a TP label, Latin or
Cyrillic, with a decimal value). -/
def tryHcTp : Option Char → Cs → Option Unit :=
  fun prev l =>
  match l with
  | t :: p :: r1 =>
    if (t = 'T' || t = 't' || t = 'Т' || t = 'т') &&
        (p = 'P' || p = 'p' || p = 'П' || p = 'п') then
      let (_, r2) := takeCls isDigitC r1
      let (_, r3) := takeCls isWS r2
      let r4 := match r3 with
        | ':' :: rr => rr
        | _ => r3
      let (_, r5) := takeCls isWS r4
      (tryDecCommaDot prev r5).map (fun _ => ())
    else none
  | _ => none

/-- Matcher for `LABEL\s*:?\s*\d+[.,]\d+`-shaped patterns
(`вход\s*:?\s*\d+[.,]\d+`; for `добор\s*\d+[.,]\d+` the colon is not in
the pattern but `\s*` alone separates). -/
def tryHcLabelDec (label : Cs) (colonOpt : Bool) :
    Option Char → Cs → Option Unit :=
  fun prev l =>
  match dropLitCI label l with
  | none => none
  | some r1 =>
    let (_, r2) := takeCls isWS r1
    let r3 := if colonOpt then
        match r2 with
        | ':' :: rr => rr.dropWhile isWS
        | _ => r2
      else r2
    (tryDecCommaDot prev r3).map (fun _ => ())

/-- Matcher for two words separated by `\s*`
(`тейк\s*профит`, `стоп\s*лосс`, `лимитный\s*ордер`). -/
def tryHcTwoWords (w1 w2 : Cs) : Option Char → Cs → Option Unit :=
  fun _ l =>
  match dropLitCI w1 l with
  | none => none
  | some r1 =>
    if (dropLitCI w2 (r1.dropWhile isWS)).isSome then some () else none

/-- Matcher for `маржа\s*\d+`. -/
def tryHcMargin : Option Char → Cs → Option Unit :=
  fun _ l =>
  match dropLitCI ("маржа").data l with
  | none => none
  | some r1 =>
    let (d, _) := takeCls isDigitC (r1.dropWhile isWS)
    if d.isEmpty then none else some ()

/-- Matcher for `фикс\s*\d+%`. -/
def tryHcFix : Option Char → Cs → Option Unit :=
  fun _ l =>
  match dropLitCI ("фикс").data l with
  | none => none
  | some r1 =>
    let (d, r2) := takeCls isDigitC (r1.dropWhile isWS)
    if d.isEmpty then none
    else match r2 with
      | '%' :: _ => some ()
      | _ => none

/-- Count of `\d+[.,]\d+` occurrences (`re.findall`, non-overlapping,
occurrences are counted, not distinct values). -/
def countDecimals (text : Cs) : ℕ := (reFindAll tryDecCommaDot text).length

/-- `TelethonTradingBot.has_concrete_trading_data` (lines 514-540): the
nine concrete patterns, then the three-number fallback. -/
def has_concrete_trading_data (text : Cs) : Bool :=
  (reSearch tryHcDollar text).isSome ||
  (reSearch tryHcTp text).isSome ||
  (reSearch (tryHcTwoWords ("тейк").data ("профит").data) text).isSome ||
  (reSearch (tryHcTwoWords ("стоп").data ("лосс").data) text).isSome ||
  (reSearch (tryHcLabelDec ("вход").data true) text).isSome ||
  (reSearch (tryHcLabelDec ("добор").data false) text).isSome ||
  (reSearch (tryHcTwoWords ("лимитный").data ("ордер").data) text).isSome ||
  (reSearch tryHcMargin text).isSome ||
  (reSearch tryHcFix text).isSome ||
  countDecimals text ≥ 3

/-- `TelethonTradingBot.is_valid_trading_signal` (lines 486-512). -/
def is_valid_trading_signal (sig : TradeSignal) (text : Cs) : Bool :=
  if sig.symbol = "UNKNOWN" then false
  else if sig.direction = "UNKNOWN" then false
  else if sig.take_profits.isEmpty then false
  else has_concrete_trading_data text

/-- Modelled from the spec: the concrete-data marker list exactly as
claim C5 words it — a currency-suffixed number, an explicit TP-labeled
number, take-profit/stop-loss vocabulary, an explicit entry-labeled
number, or at least three DISTINCT decimal numbers.  Used only to
compare the claimed rule with the code's `has_concrete_trading_data`. -/
def specConcreteMarkers (text : Cs) : Bool :=
  (reSearch tryHcDollar text).isSome ||
  (reSearch tryHcTp text).isSome ||
  (reSearch (tryHcTwoWords ("тейк").data ("профит").data) text).isSome ||
  (reSearch (tryHcTwoWords ("стоп").data ("лосс").data) text).isSome ||
  (reSearch (tryHcLabelDec ("вход").data true) text).isSome ||
  (dedupKeepFirst ((reFindAll tryDecCommaDot text).filterMap
    (fun c => pyFloat? (c.map commaDot)))).length ≥ 3

/-! ### Channel-message admission (claim C6)

`TelethonTradingBot.handle_channel_message`, `telethon_bot.py` lines
253-398, from the point where the message has been parsed.  The two
price fetches (primary symbol and the `USDT`-stripped alternative) are
modelled as inputs.  The capacity check happens before parsing and is
part of the lifecycle model. -/

/-- The universal market rule (lines 296-299). -/
def marketCondition (sig : TradeSignal) : Bool :=
  sig.is_market || (sig.entry_prices.isEmpty && sig.limit_prices.isEmpty)

/-- Python truthiness of a fetched price (`if current_price:`): present
and nonzero. -/
def truthyPrice (f : Option ℚ × String) : Option ℚ :=
  match f.1 with
  | some p => if p ≠ 0 then some p else none
  | none => none

/-- The admission decision of `handle_channel_message` after parsing:
`none` means the message is dropped, `some s` that signal `s` is stored
in `active_signals` and monitored.  For a market-condition signal the
entry price is back-filled HERE, before admission, from the first
successful fetch; a signal with no obtainable price is dropped, not
admitted with an empty `entry_prices`. -/
def handle_channel_message_core (sig : TradeSignal) (text : Cs)
    (fetch1 fetch2 : Option ℚ × String) : Option TradeSignal :=
  if sig.symbol = "UNKNOWN" then none
  else if !is_valid_trading_signal sig text then none
  else if marketCondition sig && !sig.take_profits.isEmpty then
    if fetch1.2 = "Event loop closed" then none
    else match truthyPrice fetch1 with
      | some p => some { sig with is_market := true, entry_prices := [p] }
      | none =>
        if fetch2.2 = "Event loop closed" then none
        else match truthyPrice fetch2 with
          | some p => some { sig with is_market := true, entry_prices := [p] }
          | none => none
  else if sig.entry_prices.isEmpty && sig.limit_prices.isEmpty then none
  else some sig

/-! ### The Khrustalev two-message lifecycle (claims C1, C2)

`TelethonTradingBot.handle_khrustalev_message`,
`clean_old_khrustalev_signals` and `merge_khrustalev_signals`,
`telethon_bot.py` lines 542-677, with the constants of `__init__`
(lines 196-199). -/

/-- One stored entry of `partial_khrustalev_signals`. -/
structure KhrFrag where
  signal : TradeSignal
  timestamp : ℚ
  firstMessage : String := ""
deriving Repr, DecidableEq

/-- The mutable bot state the protocol touches: the insertion-ordered
`partial_khrustalev_signals` dict and the `active_signals` dict. -/
structure BotState where
  partialKhrustalev : List (String × KhrFrag) := []
  active : List (String × TradeSignal) := []
deriving Repr, DecidableEq

/-- `khrustalev_timeout = 180` seconds (line 198). -/
def khrustalevTimeout : ℚ := 180

/-- `max_active_signals = 50` (line 199). -/
def maxActiveSignals : ℕ := 50

/-- Python dict insertion: replacing a present key keeps its position,
a fresh key is appended. -/
def dictInsert (k : String) (v : KhrFrag) :
    List (String × KhrFrag) → List (String × KhrFrag)
  | [] => [(k, v)]
  | (k', v') :: rest =>
    if k' = k then (k, v) :: rest else (k', v') :: dictInsert k v rest

/-- `clean_old_khrustalev_signals` (lines 644-656): drop fragments
strictly older than the timeout. -/
def clean_old_khrustalev_signals (now : ℚ)
    (ps : List (String × KhrFrag)) : List (String × KhrFrag) :=
  ps.filter (fun p => !(qSub now p.2.timestamp > khrustalevTimeout))

/-- The freshest-fragment selection loop (lines 569-576): running
maximum over the timestamps starting from `0`, strict comparison (ties
keep the earlier-iterated fragment; a fragment with a nonpositive
timestamp can never be selected). -/
def selectLatest : List (String × KhrFrag) → ℚ →
    Option (String × KhrFrag) → Option (String × KhrFrag)
  | [], _, acc => acc
  | p :: rest, best, acc =>
    if p.2.timestamp > best then selectLatest rest p.2.timestamp (some p)
    else selectLatest rest best acc

/-- Attribute lookup `advanced_parser.parse_khrustalev` performed at
`telethon_bot.py` line 546.  The name `advanced_parser` imported at
line 3 is the `AdvancedParser` INSTANCE created at
`advanced_parser.py` line 908; `parse_khrustalev` (`advanced_parser.py`
line 916) is a module-level function the class never defines, so the
lookup raises `AttributeError` on every call: no parser is reachable
through the instance. -/
def instanceParseKhrustalev :
    Option (String → String → ℚ → TradeSignal) := none

/-- Attribute lookup `advanced_parser.TradeSignal` performed at
`telethon_bot.py` line 660: `TradeSignal` (`advanced_parser.py` line
12) is likewise module-level, not an attribute of the instance, so the
lookup raises `AttributeError`. -/
def instanceTradeSignal : Option Unit := none

/-- `merge_khrustalev_signals` (lines 658-677).  Its first statement
`merged = advanced_parser.TradeSignal()` (line 660) fails the
attribute lookup, so the function never returns; the record in the
`some` branch is what lines 662-676 would build (symbol, direction,
entries, source and timestamp from the first fragment; targets and
stop from the second; leverage and margin via Python `or` preferring
the first) were a constructor reachable. -/
def merge_khrustalev_signals (first second : TradeSignal) :
    Option TradeSignal :=
  match instanceTradeSignal with
  | none => none
  | some _ => some
    { symbol := first.symbol, direction := first.direction,
      entry_prices := first.entry_prices, source := first.source,
      timestamp := first.timestamp, take_profits := second.take_profits,
      stop_loss := second.stop_loss,
      leverage := pyOrN first.leverage second.leverage,
      margin := pyOrQ first.margin second.margin }

/-- `f"{symbol}_{int(time.time())}"`: the integer part of a (positive)
time. -/
def intFloorStr (q : ℚ) : String := toString q.floor

/-- Lines 547-640 of `handle_khrustalev_message`, the body that would
follow a successful parse at line 546: sweep expired fragments, store
an entry fragment, or select the freshest stored fragment for a
targets-only one.  The merge call at line 587 aborts with the
`AttributeError` of line 660, caught by the `except` at line 641, so
the targets-only branch leaves the (already swept) state otherwise
unchanged; the capacity check, admission and fragment deletion (lines
590-600) sit after the merge call and are equally unreachable. -/
def handle_khrustalev_parsed (sig : TradeSignal) (now : ℚ)
    (st : BotState) : BotState :=
  let st := { st with
    partialKhrustalev := clean_old_khrustalev_signals now st.partialKhrustalev }
  if sig.symbol != "UNKNOWN" && !sig.entry_prices.isEmpty then
    let frag : KhrFrag := ⟨sig, now, ""⟩
    { st with partialKhrustalev :=
        dictInsert ("khrustalev_" ++ sig.symbol) frag st.partialKhrustalev }
  else if !sig.take_profits.isEmpty && sig.entry_prices.isEmpty then
    match selectLatest st.partialKhrustalev 0 none with
    | some (pid, frag) =>
      if qSub now frag.timestamp ≤ khrustalevTimeout then
        match merge_khrustalev_signals frag.signal sig with
        | none => st
        | some merged =>
          if st.active.length ≥ maxActiveSignals then st
          else
            { st with
              active := st.active ++
                [(merged.symbol ++ "_" ++ intFloorStr now, merged)],
              partialKhrustalev :=
                st.partialKhrustalev.filter (fun p => p.1 ≠ pid) }
      else st
    | none => st
  else st

/-- `handle_khrustalev_message` (lines 542-642) on raw text.  Its
first statement (line 546) fails the `advanced_parser.parse_khrustalev`
attribute lookup and the `except Exception` at line 641 swallows the
error before any state was touched, so every call is a state no-op:
lines 547-640 are dead code. -/
def handle_khrustalev_message (text source : String) (now : ℚ)
    (st : BotState) : BotState :=
  match instanceParseKhrustalev with
  | none => st
  | some parse => handle_khrustalev_parsed (parse text source now) now st

/-! ## Theorems -/

/-! ### Helper lemmas -/

theorem qAdd_eq (a b : ℚ) : qAdd a b = a + b := by
  unfold qAdd
  rw [Rat.mkRat_eq_div]
  have ha : (a.den : ℚ) ≠ 0 := by
    exact_mod_cast a.den_nz
  have hb : (b.den : ℚ) ≠ 0 := by
    exact_mod_cast b.den_nz
  conv_rhs => rw [← Rat.num_div_den a, ← Rat.num_div_den b]
  push_cast
  field_simp

theorem qSub_eq (a b : ℚ) : qSub a b = a - b := by
  unfold qSub
  rw [Rat.mkRat_eq_div]
  have ha : (a.den : ℚ) ≠ 0 := by
    exact_mod_cast a.den_nz
  have hb : (b.den : ℚ) ≠ 0 := by
    exact_mod_cast b.den_nz
  conv_rhs => rw [← Rat.num_div_den a, ← Rat.num_div_den b]
  push_cast
  field_simp
  ring

theorem qMul_eq (a b : ℚ) : qMul a b = a * b := by
  unfold qMul
  rw [Rat.mkRat_eq_div]
  have ha : (a.den : ℚ) ≠ 0 := by
    exact_mod_cast a.den_nz
  have hb : (b.den : ℚ) ≠ 0 := by
    exact_mod_cast b.den_nz
  conv_rhs => rw [← Rat.num_div_den a, ← Rat.num_div_den b]
  push_cast
  field_simp

theorem qInv_eq (a : ℚ) : qInv a = a⁻¹ := by
  unfold qInv
  rw [Rat.inv_def', Rat.divInt_eq_div, Rat.mkRat_eq_div]
  rcases le_or_lt 0 a.num with h | h
  · rw [if_pos h, Int.cast_natAbs, abs_of_nonneg h]
  · rw [if_neg (not_le.mpr h), Int.cast_natAbs, abs_of_neg h]
    push_cast
    rw [div_neg, neg_div, neg_neg]

theorem qDiv_eq (a b : ℚ) : qDiv a b = a / b := by
  unfold qDiv
  rw [qMul_eq, qInv_eq, div_eq_mul_inv]

theorem qAbs_eq (a : ℚ) : qAbs a = |a| := by
  unfold qAbs
  rcases le_or_lt 0 a.num with h | h
  · rw [abs_of_nonneg h, Rat.mkRat_self,
      abs_of_nonneg (by exact_mod_cast Rat.num_nonneg.mp h)]
  · have h2 : a < 0 :=
      lt_of_not_le (fun hle => absurd (Rat.num_nonneg.mpr hle) (not_le.mpr h))
    rw [abs_of_neg h, abs_of_neg h2, ← Rat.neg_mkRat, Rat.mkRat_self]

theorem mem_insertAsc {x y : ℚ} {l : List ℚ} :
    y ∈ insertAsc x l ↔ y = x ∨ y ∈ l := by
  induction l with
  | nil => simp [insertAsc]
  | cons a t ih =>
    simp only [insertAsc]
    split
    · simp
    · simp [ih]; tauto

theorem mem_sortAsc {y : ℚ} {l : List ℚ} : y ∈ sortAsc l ↔ y ∈ l := by
  induction l with
  | nil => simp [sortAsc]
  | cons a t ih =>
    simp only [sortAsc, List.foldr] at *
    rw [mem_insertAsc, ih]
    simp

theorem mem_sortDesc {y : ℚ} {l : List ℚ} : y ∈ sortDesc l ↔ y ∈ l := by
  simp [sortDesc, mem_sortAsc]

theorem casePairs_snd_fix : ∀ p ∈ casePairs, pyToUpper p.2 = p.2 := by decide

theorem casePairs_fst_not_AZ09 :
    ∀ p ∈ casePairs, (isUpperAZ p.1 || isDigitC p.1) = false := by decide

theorem pyToUpper_idem (c : Char) : pyToUpper (pyToUpper c) = pyToUpper c := by
  cases h : casePairs.find? (fun p => decide (p.1 = c)) with
  | none =>
    have hc : pyToUpper c = c := by unfold pyToUpper; rw [h]
    rw [hc, hc]
  | some p =>
    have hc : pyToUpper c = p.2 := by unfold pyToUpper; rw [h]
    rw [hc]
    exact casePairs_snd_fix p (List.mem_of_find?_eq_some h)

theorem pyToUpper_fixed_AZ09 (c : Char)
    (h : (isUpperAZ c || isDigitC c) = true) : pyToUpper c = c := by
  have hn : casePairs.find? (fun p => decide (p.1 = c)) = none := by
    rw [List.find?_eq_none]
    intro p hp
    simp only [decide_eq_true_eq]
    intro hpc
    have hf := casePairs_fst_not_AZ09 p hp
    rw [hpc, h] at hf
    exact Bool.noConfusion hf
  unfold pyToUpper
  rw [hn]

theorem isPre_self_append (a b : Cs) : isPre a (a ++ b) = true := by
  induction a with
  | nil => simp [isPre]
  | cons c t ih => simp [isPre, ih]

theorem endsWithL_append (l t : Cs) : endsWithL (l ++ t) t = true := by
  unfold endsWithL
  rw [List.reverse_append]
  exact isPre_self_append t.reverse l.reverse

theorem upperNoSlash_of_fixed (l : Cs)
    (h : ∀ c ∈ l, pyToUpper c = c ∧ c ≠ '/') :
    (pyUpper l).filter (fun c => c ≠ '/') = l := by
  unfold pyUpper
  have hmap : l.map pyToUpper = l := by
    have hm := List.map_congr_left (l := l) (f := pyToUpper) (g := id)
      (fun a ha => (h a ha).1)
    simpa using hm
  rw [hmap, List.filter_eq_self]
  intro a ha
  exact decide_eq_true (h a ha).2

theorem usdt_chars_fixed : ∀ c ∈ ("USDT").data, pyToUpper c = c ∧ c ≠ '/' := by
  decide

/-- Characters of a normalized Binance symbol are upper-case fixed
points and never `/`. -/
theorem binanceNorm_chars (s : Cs) :
    ∀ c ∈ binanceNormalizeSymbol s, pyToUpper c = c ∧ c ≠ '/' := by
  intro c hc
  simp only [binanceNormalizeSymbol] at hc
  have base : ∀ d ∈ (pyUpper s).filter (fun c => c ≠ '/'),
      pyToUpper d = d ∧ d ≠ '/' := by
    intro d hd
    rcases List.mem_filter.mp hd with ⟨hdm, hdne⟩
    rcases List.mem_map.mp hdm with ⟨a, _, rfl⟩
    exact ⟨pyToUpper_idem a, by simpa using hdne⟩
  split at hc
  · exact base c hc
  · rcases List.mem_append.mp hc with h1 | h2
    · exact base c h1
    · exact usdt_chars_fixed c h2

theorem binanceNorm_endsWith_quote (s : Cs) :
    (binanceQuoteAssets.any
      (fun q => endsWithL (binanceNormalizeSymbol s) q)) = true := by
  simp only [binanceNormalizeSymbol]
  split
  · next h => exact h
  · have he := endsWithL_append ((pyUpper s).filter (fun c => decide (c ≠ '/')))
      (("USDT").data)
    simp only [binanceQuoteAssets, List.map, List.any_cons]
    rw [he]
    rfl

/-! ### Claim C9 -/

/-- Claim C9: both symbol normalizations are idempotent —
`normalize_symbol(normalize_symbol(x)) == normalize_symbol(x)` for the
exchange-side normalization of `BinancePublicAPI.normalize_symbol`
(upper-case, strip `/`, append a quote asset when no known quote suffix
is present) and for the parser's internal `normalize_symbol`
(upper-case, strip non-alphanumerics), for every string `x`. -/
theorem C9_normalize_symbol_idempotent (x : Cs) :
    binanceNormalizeSymbol (binanceNormalizeSymbol x) =
      binanceNormalizeSymbol x ∧
    parserNormalizeSymbol (parserNormalizeSymbol x) =
      parserNormalizeSymbol x := by
  constructor
  · conv_lhs => rw [binanceNormalizeSymbol]
    rw [upperNoSlash_of_fixed _ (binanceNorm_chars x),
      binanceNorm_endsWith_quote x]
    simp
  · have hmem : ∀ c ∈ parserNormalizeSymbol x,
        (isUpperAZ c || isDigitC c) = true := by
      intro c hc
      unfold parserNormalizeSymbol at hc
      simpa using (List.mem_filter.mp hc).2
    conv_lhs => rw [parserNormalizeSymbol]
    have hmap : (parserNormalizeSymbol x).map pyToUpper =
        parserNormalizeSymbol x := by
      have hm := List.map_congr_left (l := parserNormalizeSymbol x)
        (f := pyToUpper) (g := id)
        (fun a ha => pyToUpper_fixed_AZ09 a (hmem a ha))
      simpa using hm
    unfold pyUpper
    rw [hmap, List.filter_eq_self]
    intro a ha
    exact hmem a ha

/-! ### Claim C10 -/

/-- Claim C10: whenever `MultiExchangeAPI.get_current_price` returns a
price, that price is strictly positive and the provider name is one of
the two backing exchanges; a zero or negative provider price is never
propagated. -/
theorem tryProviders_sound (l : List (String × ProviderResult)) (p : ℚ)
    (name : String) (h : tryProviders l = (some p, name)) :
    0 < p ∧ name ∈ l.map Prod.fst := by
  induction l with
  | nil => simp [tryProviders] at h
  | cons hd tl ih =>
    obtain ⟨n, r⟩ := hd
    cases r with
    | loopError => simp [tryProviders] at h
    | failure =>
      simp only [tryProviders] at h
      rcases ih h with ⟨h1, h2⟩
      exact ⟨h1, by simp [h2]⟩
    | ok valid price =>
      cases valid with
      | false =>
        simp only [tryProviders, Bool.false_eq_true, if_false] at h
        rcases ih h with ⟨h1, h2⟩
        exact ⟨h1, by simp [h2]⟩
      | true =>
        cases price with
        | none =>
          simp only [tryProviders, if_true] at h
          rcases ih h with ⟨h1, h2⟩
          exact ⟨h1, by simp [h2]⟩
        | some q =>
          simp only [tryProviders, if_true] at h
          by_cases hq : q ≠ 0 ∧ 0 < q
          · rw [if_pos hq] at h
            have h1 : some q = some p := congrArg Prod.fst h
            have h2 : n = name := congrArg Prod.snd h
            injection h1 with h1
            subst h1
            exact ⟨hq.2, by simp [← h2]⟩
          · rw [if_neg hq] at h
            rcases ih h with ⟨h1, h2⟩
            exact ⟨h1, by simp [h2]⟩

theorem C10_price_positive_and_named (loopClosed : Bool)
    (binance bingx : ProviderResult) (p : ℚ) (name : String)
    (h : multiExchangeGetCurrentPrice loopClosed binance bingx =
      (some p, name)) :
    0 < p ∧ (name = "Binance" ∨ name = "BingX") := by
  unfold multiExchangeGetCurrentPrice at h
  split at h
  · exact absurd (congrArg Prod.fst h) (by simp)
  · rcases tryProviders_sound _ p name h with ⟨h1, h2⟩
    refine ⟨h1, ?_⟩
    simpa using h2

/-- Witness for C10 at a concrete input: Binance invalid, BingX valid
with price 5. -/
theorem C10_witness :
    (0 : ℚ) < 5 ∧ (("BingX" : String) = "Binance" ∨ ("BingX" : String) = "BingX") :=
  C10_price_positive_and_named false (.ok false none) (.ok true (some 5))
    5 "BingX" (by norm_num [multiExchangeGetCurrentPrice, tryProviders])

/-! ### Monitor lemmas and claims C3, C4 -/

/-- Invariant of a monitor run started fresh: either still open with no
history record, or closed with one of the four reasons the code writes
and exactly one record. -/
def monInv (st : MonitorState) : Prop :=
  (st.closed = none ∧ st.history = []) ∨
  (∃ r, st.closed = some r ∧ r ∈ monitorTerminalReasons ∧
    st.history.length = 1)

theorem monitorStep_of_closed (st : MonitorState) (poll : Option ℚ × String)
    (h : st.closed.isSome) : monitorStep st poll = st := by
  simp [monitorStep, h]

theorem monitorStep_inv (st : MonitorState) (poll : Option ℚ × String)
    (h : monInv st) : monInv (monitorStep st poll) := by
  obtain ⟨p1, p2⟩ := poll
  rcases h with ⟨hc, hh⟩ | ⟨r, hc, hr, hh⟩
  · unfold monitorStep
    rw [hc]
    simp only [Option.isSome_none, Bool.false_eq_true, if_false]
    split
    · right
      exact ⟨"event_loop_error", rfl, by simp [monitorTerminalReasons],
        by simp [hh]⟩
    · cases p1 with
      | none =>
        simp only []
        split
        · right
          exact ⟨"symbol_not_found", rfl, by simp [monitorTerminalReasons],
            by simp [hh]⟩
        · left; exact ⟨rfl, hh⟩
      | some p =>
        simp only []
        split
        · right
          exact ⟨"all_take_profits", rfl, by simp [monitorTerminalReasons],
            by simp [hh]⟩
        · split
          · right
            exact ⟨"stop_loss", rfl, by simp [monitorTerminalReasons],
              by simp [hh]⟩
          · left; exact ⟨rfl, hh⟩
  · rw [monitorStep_of_closed st _ (by simp [hc])]
    exact Or.inr ⟨r, hc, hr, hh⟩

theorem monitorRun_inv (polls : List (Option ℚ × String)) :
    ∀ st : MonitorState, monInv st → monInv (monitorRun st polls) := by
  induction polls with
  | nil => intro st h; exact h
  | cons p ps ih =>
    intro st h
    exact ih (monitorStep st p) (monitorStep_inv st p h)

/-- Claim C3 (amended): a Monitor run that terminates its signal
transitions to exactly one terminal reason drawn from
{`all_take_profits`, `stop_loss`, `symbol_not_found`,
`event_loop_error`} — the code has a fourth reason for the
event-loop-closed provider sentinel, beyond the three the claim lists —
and appends exactly one history record. -/
theorem C3_terminal_reason_exclusive (sig : TradeSignal)
    (polls : List (Option ℚ × String)) (r : String)
    (h : (monitorRun (monitorInit sig) polls).closed = some r) :
    r ∈ monitorTerminalReasons ∧
    (monitorRun (monitorInit sig) polls).history.length = 1 := by
  have hinv := monitorRun_inv polls (monitorInit sig) (Or.inl ⟨rfl, rfl⟩)
  rcases hinv with ⟨hc, _⟩ | ⟨r', hc, hr, hh⟩
  · rw [h] at hc; cases hc
  · rw [h] at hc
    injection hc with hc
    subst hc
    exact ⟨hr, hh⟩

/-- Counterexample to claim C3 as stated: a poll answered with the
`"Event loop closed"` sentinel terminates the signal (one history
record is appended and the signal leaves the active map) with reason
`event_loop_error`, which is outside the claimed three-element set. -/
theorem C3_counterexample :
    (monitorRun (monitorInit {}) [(some 1, "Event loop closed")]).closed =
      some "event_loop_error" ∧
    ("event_loop_error" : String) ∉
      (["all_take_profits", "stop_loss", "symbol_not_found"] : List String) ∧
    (monitorRun (monitorInit {}) [(some 1, "Event loop closed")]).history =
      [("event_loop_error", 0)] := by
  decide

/-- Witness for C3 at a concrete input: five unavailable polls close a
fresh monitor with one history record. -/
theorem C3_witness :
    ("symbol_not_found" : String) ∈ monitorTerminalReasons ∧
    (monitorRun (monitorInit {})
      (List.replicate 5 ((none : Option ℚ), "None"))).history.length = 1 :=
  C3_terminal_reason_exclusive {} (List.replicate 5 (none, "None"))
    "symbol_not_found" (by decide)

/-- Claim C4: on every poll of a live monitor that is not the event-loop
sentinel, an unavailable price increments the consecutive-failure
counter and a successful price read resets it to zero; the fifth
consecutive failure terminates the signal with reason
`symbol_not_found` and a history record whose close price is `0`. -/
theorem C4_consecutive_failure_handling :
    (∀ (st : MonitorState) (p : ℚ) (ex : String), st.closed = none →
      ex ≠ "Event loop closed" →
      (monitorStep st (some p, ex)).errorCount = 0) ∧
    (∀ (st : MonitorState) (ex : String), st.closed = none →
      ex ≠ "Event loop closed" → st.errorCount + 1 < maxErrors →
      (monitorStep st (none, ex)).errorCount = st.errorCount + 1 ∧
      (monitorStep st (none, ex)).closed = none ∧
      (monitorStep st (none, ex)).history = st.history) ∧
    (∀ (st : MonitorState) (ex : String), st.closed = none →
      ex ≠ "Event loop closed" → maxErrors ≤ st.errorCount + 1 →
      (monitorStep st (none, ex)).closed = some "symbol_not_found" ∧
      (monitorStep st (none, ex)).history =
        st.history ++ [("symbol_not_found", 0)]) := by
  refine ⟨?_, ?_, ?_⟩
  · intro st p ex hc hex
    unfold monitorStep
    rw [hc]
    simp only [Option.isSome_none, Bool.false_eq_true, if_false, if_neg hex]
    split
    · simp
    · split
      · simp
      · simp
  · intro st ex hc hex hlt
    unfold monitorStep
    rw [hc]
    simp only [Option.isSome_none, Bool.false_eq_true, if_false, if_neg hex]
    rw [if_neg (by omega)]
    exact ⟨rfl, rfl, rfl⟩
  · intro st ex hc hex hge
    unfold monitorStep
    rw [hc]
    simp only [Option.isSome_none, Bool.false_eq_true, if_false, if_neg hex]
    rw [if_pos hge]
    exact ⟨rfl, rfl⟩

/-! ### Claim C5 -/

/-- Claim C5 (amended): `is_valid_trading_signal` accepts exactly the
signals with known symbol and direction, at least one take-profit, and
raw text showing one of the NINE concrete-data patterns of
`has_concrete_trading_data` — the spec's five-marker list plus the
`добор`-labelled number, the `лимитный ордер` phrase, the
`маржа`-labelled number and the `фикс N%` pattern — or at least three
decimal-number OCCURRENCES (not necessarily distinct). -/
theorem C5_validator_characterization (sig : TradeSignal) (text : Cs) :
    is_valid_trading_signal sig text = true ↔
      (sig.symbol ≠ "UNKNOWN" ∧ sig.direction ≠ "UNKNOWN" ∧
       sig.take_profits ≠ [] ∧
       ((reSearch tryHcDollar text).isSome = true ∨
        (reSearch tryHcTp text).isSome = true ∨
        (reSearch (tryHcTwoWords ("тейк").data ("профит").data) text).isSome = true ∨
        (reSearch (tryHcTwoWords ("стоп").data ("лосс").data) text).isSome = true ∨
        (reSearch (tryHcLabelDec ("вход").data true) text).isSome = true ∨
        (reSearch (tryHcLabelDec ("добор").data false) text).isSome = true ∨
        (reSearch (tryHcTwoWords ("лимитный").data ("ордер").data) text).isSome = true ∨
        (reSearch tryHcMargin text).isSome = true ∨
        (reSearch tryHcFix text).isSome = true ∨
        3 ≤ countDecimals text)) := by
  unfold is_valid_trading_signal
  split_ifs with h1 h2 h3
  · simp [h1]
  · simp [h1, h2]
  · constructor
    · intro h; cases h
    · rintro ⟨-, -, htp, -⟩
      exact absurd (List.isEmpty_iff.mp h3) htp
  · unfold has_concrete_trading_data
    simp only [Bool.or_eq_true, decide_eq_true_eq, ge_iff_le]
    constructor
    · intro hcon
      refine ⟨h1, h2, ?_, ?_⟩
      · intro he
        exact h3 (by simp [he])
      · tauto
    · rintro ⟨-, -, -, hm⟩
      tauto

/-- Counterexample to claim C5 as stated: the message `добор 0.78`
carries none of the claim's markers (no currency-suffixed number, no
TP-labelled number, no take-profit/stop-loss vocabulary, no
entry-labelled number, only one distinct decimal), yet the validator
accepts a signal with known fields for it, via the `добор` pattern the
claim omits. -/
theorem C5_counterexample :
    is_valid_trading_signal
        { symbol := "BTCUSDT", direction := "LONG", take_profits := [1] }
        ("добор 0.78").data = true ∧
    specConcreteMarkers ("добор 0.78").data = false ∧
    ("BTCUSDT" : String) ≠ "UNKNOWN" ∧ ("LONG" : String) ≠ "UNKNOWN" ∧
    ([1] : List ℚ) ≠ [] := by
  decide

/-! ### Claim C6 -/

theorem monitorStep_sig (st : MonitorState) (poll : Option ℚ × String) :
    (monitorStep st poll).sig = st.sig := by
  obtain ⟨p1, p2⟩ := poll
  unfold monitorStep
  split
  · rfl
  · split
    · rfl
    · cases p1 with
      | none =>
        simp only []
        split
        · rfl
        · rfl
      | some p =>
        simp only []
        split
        · rfl
        · split
          · rfl
          · rfl

theorem monitorRun_sig (polls : List (Option ℚ × String)) :
    ∀ st : MonitorState, (monitorRun st polls).sig = st.sig := by
  induction polls with
  | nil => intro st; rfl
  | cons p ps ih =>
    intro st
    calc (monitorRun (monitorStep st p) ps).sig
        = (monitorStep st p).sig := ih (monitorStep st p)
      _ = st.sig := monitorStep_sig st p

theorem valid_symbol {sig : TradeSignal} {text : Cs}
    (h : is_valid_trading_signal sig text = true) : ¬ sig.symbol = "UNKNOWN" := by
  intro he
  simp [is_valid_trading_signal, he] at h

theorem valid_tps {sig : TradeSignal} {text : Cs}
    (h : is_valid_trading_signal sig text = true) :
    sig.take_profits.isEmpty = false := by
  cases hx : sig.take_profits.isEmpty
  · rfl
  · exfalso
    unfold is_valid_trading_signal at h
    rw [hx] at h
    simp at h

/-- Claim C6 (amended): the Monitor never writes the signal (in
particular it never back-fills `entry_prices`); the market-order
back-fill happens in `handle_channel_message` BEFORE admission — a
market-condition signal is admitted with `entry_prices = [p]` for the
first truthy fetched price `p`, and is dropped entirely when neither
fetch yields a truthy price. -/
theorem C6_backfill_at_admission :
    (∀ (sig : TradeSignal) (polls : List (Option ℚ × String)),
      (monitorRun (monitorInit sig) polls).sig = sig) ∧
    (∀ (sig : TradeSignal) (text : Cs) (fetch1 fetch2 : Option ℚ × String)
      (p : ℚ), is_valid_trading_signal sig text = true →
      marketCondition sig = true →
      fetch1.2 ≠ "Event loop closed" → truthyPrice fetch1 = some p →
      handle_channel_message_core sig text fetch1 fetch2 =
        some { sig with is_market := true, entry_prices := [p] }) ∧
    (∀ (sig : TradeSignal) (text : Cs) (fetch1 fetch2 : Option ℚ × String),
      is_valid_trading_signal sig text = true →
      marketCondition sig = true →
      fetch1.2 ≠ "Event loop closed" → truthyPrice fetch1 = none →
      fetch2.2 ≠ "Event loop closed" → truthyPrice fetch2 = none →
      handle_channel_message_core sig text fetch1 fetch2 = none) := by
  refine ⟨?_, ?_, ?_⟩
  · intro sig polls
    exact monitorRun_sig polls (monitorInit sig)
  · intro sig text f1 f2 p hv hmc hf1 ht
    unfold handle_channel_message_core
    rw [if_neg (valid_symbol hv), hv]
    simp only [Bool.not_true, Bool.false_eq_true, if_false]
    rw [hmc, valid_tps hv]
    simp only [Bool.not_false, Bool.and_self, if_true]
    rw [if_neg hf1, ht]
  · intro sig text f1 f2 hv hmc hf1 ht1 hf2 ht2
    unfold handle_channel_message_core
    rw [if_neg (valid_symbol hv), hv]
    simp only [Bool.not_true, Bool.false_eq_true, if_false]
    rw [hmc, valid_tps hv]
    simp only [Bool.not_false, Bool.and_self, if_true]
    rw [if_neg hf1, ht1, if_neg hf2, ht2]

/-- Counterexample to claim C6 as stated: a valid signal with
`entry_prices = []` and a nonempty `limit_prices` is admitted by
`handle_channel_message` with its entry still empty, and after a
successful price read at 42 the Monitor's signal still has
`entry_prices = []` — the Monitor does not set it to the observed
price. -/
theorem C6_counterexample :
    handle_channel_message_core
        { symbol := "SOLUSDT", direction := "LONG", limit_prices := [5],
          take_profits := [6, 7] } ("1.1 2.2 3.3").data
        (some 42, "Binance") (none, "None") =
      some { symbol := "SOLUSDT", direction := "LONG", limit_prices := [5],
             take_profits := [6, 7] } ∧
    ({ symbol := "SOLUSDT", direction := "LONG", limit_prices := [5],
        take_profits := [6, 7] } : TradeSignal).entry_prices = [] ∧
    (monitorRun
        (monitorInit { symbol := "SOLUSDT", direction := "LONG",
                       limit_prices := [5], take_profits := [6, 7] })
        [((some 42 : Option ℚ), "Binance")]).sig.entry_prices = [] ∧
    ([] : List ℚ) ≠ [42] := by
  decide

/-- Witness for C6 at concrete inputs: the Monitor leaves a default
signal unchanged; a market signal is admitted with the fetched price 9
as its entry; a market signal whose fetches return nothing and a
zero (falsy) price is dropped. -/
theorem C6_witness :
    (monitorRun (monitorInit {}) [((some 3 : Option ℚ), "Binance")]).sig =
      ({} : TradeSignal) ∧
    handle_channel_message_core
        { symbol := "BTCUSDT", direction := "LONG", take_profits := [2],
          is_market := true } ("1.1 2.2 3.3").data
        (some 9, "Binance") (none, "None") =
      some { symbol := "BTCUSDT", direction := "LONG", take_profits := [2],
             is_market := true, entry_prices := [9] } ∧
    handle_channel_message_core
        { symbol := "BTCUSDT", direction := "LONG", take_profits := [2],
          is_market := true } ("1.1 2.2 3.3").data
        (none, "None") (some 0, "BingX") = none :=
  ⟨C6_backfill_at_admission.1 {} [(some 3, "Binance")],
   C6_backfill_at_admission.2.1 _ _ _ _ 9 (by decide) (by decide) (by decide)
     (by decide),
   C6_backfill_at_admission.2.2 _ _ _ _ (by decide) (by decide) (by decide)
     (by decide) (by decide) (by decide)⟩

/-! ### Claim C7 -/

/-- Counterexample to claim C7 as stated: on Scenario A's text the
returned `stop_loss` is not 63000 — `extract_stop_loss` has no pattern
for a plain Latin `Stop:` label (only `stop loss` variants, Cyrillic
labels and emoji labels), so the field stays `None`. -/
theorem C7_counterexample :
    (parse_signal
      "BTCUSDT LONG\nEntry: 65000\nTargets: 67000, 69000, 72000\nStop: 63000"
      "Test" 0).stop_loss ≠ some 63000 := by
  decide

/-- Claim C7 (amended): Scenario A extracts symbol `BTCUSDT`, direction
LONG, entry `[65000]`, take-profits `[67000, 69000, 72000]`, and —
unlike the claim's `stop_loss=63000` — no stop loss. -/
theorem C7_scenario_A :
    (parse_signal
      "BTCUSDT LONG\nEntry: 65000\nTargets: 67000, 69000, 72000\nStop: 63000"
      "Test" 0).symbol = "BTCUSDT" ∧
    (parse_signal
      "BTCUSDT LONG\nEntry: 65000\nTargets: 67000, 69000, 72000\nStop: 63000"
      "Test" 0).direction = "LONG" ∧
    (parse_signal
      "BTCUSDT LONG\nEntry: 65000\nTargets: 67000, 69000, 72000\nStop: 63000"
      "Test" 0).entry_prices = [65000] ∧
    (parse_signal
      "BTCUSDT LONG\nEntry: 65000\nTargets: 67000, 69000, 72000\nStop: 63000"
      "Test" 0).take_profits = [67000, 69000, 72000] ∧
    (parse_signal
      "BTCUSDT LONG\nEntry: 65000\nTargets: 67000, 69000, 72000\nStop: 63000"
      "Test" 0).stop_loss = none := by
  refine ⟨by decide, by decide, by decide, by decide, by decide⟩

/-! ### Claim C8 -/

theorem closeFilter_mem {dir : String} {e x : ℚ} {l : List ℚ}
    (h : x ∈ closeFilter dir e l) : x ∈ l := by
  simp only [closeFilter] at h
  split_ifs at h
  · exact (List.mem_filter.mp (mem_sortDesc.mp h)).1
  · exact (List.mem_filter.mp (mem_sortAsc.mp h)).1
  · exact h
  · exact h

theorem filter_len_all {p : ℚ → Bool} {l : List ℚ}
    (h : (l.filter p).length = l.length) : ∀ x ∈ l, p x = true := by
  induction l with
  | nil => intro x hx; cases hx
  | cons a t ih =>
    intro x hx
    cases hp : p a with
    | true =>
      rw [List.filter_cons_of_pos hp] at h
      simp only [List.length_cons, Nat.add_right_cancel_iff] at h
      rcases List.mem_cons.mp hx with rfl | hxt
      · exact hp
      · exact ih h x hxt
    | false =>
      have hp' : ¬ p a = true := by rw [hp]; exact Bool.false_ne_true
      rw [List.filter_cons_of_neg hp'] at h
      have hle := List.length_filter_le p t
      simp only [List.length_cons] at h
      omega

theorem closeFilter_dichotomy (dir : String) (e : ℚ) (l : List ℚ) :
    (∀ x ∈ closeFilter dir e l, tpPass dir e x = true) ∨
    (∀ x ∈ closeFilter dir e l, tpPass dir e x = false) := by
  simp only [closeFilter]
  split_ifs with hf hl hd
  · left
    intro x hx
    exact (List.mem_filter.mp (mem_sortDesc.mp hx)).2
  · left
    intro x hx
    exact (List.mem_filter.mp (mem_sortAsc.mp hx)).2
  · left
    intro x hx
    have hlen : (l.filter (tpPass dir e)).length = l.length := not_ne_iff.mp hl
    exact filter_len_all hlen x hx
  · right
    intro x hx
    have hnil : l.filter (tpPass dir e) = [] := by
      cases hq : l.filter (tpPass dir e) with
      | nil => rfl
      | cons a t => rw [hq] at hf; simp at hf
    have := List.filter_eq_nil_iff.mp hnil x hx
    cases hp : tpPass dir e x
    · rfl
    · exact absurd hp this

theorem headI_of_head? {l : List ℚ} {e : ℚ} (h : l.head? = some e) :
    l.headI = e ∧ l ≠ [] := by
  cases l with
  | nil => cases h
  | cons a t =>
    simp only [List.head?_cons, Option.some.injEq] at h
    refine ⟨h, ?_⟩
    intro he
    cases he

theorem finalize_dichotomy (dir : String) (entry tps2 : List ℚ) (e : ℚ)
    (he : entry.head? = some e) :
    (∀ tp ∈ (if !entry.isEmpty && !tps2.isEmpty then
        closeFilter dir entry.headI tps2 else tps2),
      tpPass dir e tp = true) ∨
    (∀ tp ∈ (if !entry.isEmpty && !tps2.isEmpty then
        closeFilter dir entry.headI tps2 else tps2),
      tpPass dir e tp = false) := by
  rcases headI_of_head? he with ⟨hh, hne⟩
  cases tps2 with
  | nil =>
    simp only [List.isEmpty_nil, Bool.not_true, Bool.and_false,
      Bool.false_eq_true, if_false]
    left
    intro tp htp
    cases htp
  | cons a t =>
    have hee : entry.isEmpty = false := by
      cases entry
      · exact absurd rfl hne
      · rfl
    rw [hee, hh]
    simp only [Bool.not_false, List.isEmpty_cons, Bool.and_self, if_true]
    exact closeFilter_dichotomy dir e (a :: t)

/-- Claim C8 (amended): for every parsed signal with a known entry
price, EITHER every returned take-profit passes the 0.5% minimum
distance test on the profitable side, OR none of them does — the
post-filter (lines 842-868) only replaces `take_profits` when the
filtered list is nonempty, so when every target is within the 0.5%
threshold the original targets are kept, not dropped. -/
theorem C8_minimum_distance_filter (text source : String) (now : ℚ) (e : ℚ)
    (he : (parse_signal text source now).entry_prices.head? = some e) :
    (∀ tp ∈ (parse_signal text source now).take_profits,
      tpPass (parse_signal text source now).direction e tp = true) ∨
    (∀ tp ∈ (parse_signal text source now).take_profits,
      tpPass (parse_signal text source now).direction e tp = false) := by
  revert he
  simp only [parse_signal]
  intro he
  exact finalize_dichotomy _ _ _ e he

/-- Counterexample to claim C8 as stated: the parsed signal for
`BTC LONG / entry: 10000 / target: 10001` keeps the take-profit 10001,
which is only 0.01% above the entry price — below the claimed 0.5%
minimum distance. -/
theorem C8_counterexample :
    (parse_signal "BTC LONG\nentry: 10000\ntarget: 10001" "Ch" 0).direction =
      "LONG" ∧
    (parse_signal "BTC LONG\nentry: 10000\ntarget: 10001" "Ch" 0).entry_prices =
      [10000] ∧
    (parse_signal "BTC LONG\nentry: 10000\ntarget: 10001" "Ch" 0).take_profits =
      [10001] ∧
    |(10001 : ℚ) - 10000| / 10000 * 100 < 1/2 :=
  ⟨by decide, by decide, by decide, by norm_num⟩

/-- Witness for C8 at a concrete input: the same text, entry 10000. -/
theorem C8_witness :
    (∀ tp ∈ (parse_signal "BTC LONG\nentry: 10000\ntarget: 10001" "Ch" 0).take_profits,
      tpPass (parse_signal "BTC LONG\nentry: 10000\ntarget: 10001" "Ch" 0).direction
        10000 tp = true) ∨
    (∀ tp ∈ (parse_signal "BTC LONG\nentry: 10000\ntarget: 10001" "Ch" 0).take_profits,
      tpPass (parse_signal "BTC LONG\nentry: 10000\ntarget: 10001" "Ch" 0).direction
        10000 tp = false) :=
  C8_minimum_distance_filter "BTC LONG\nentry: 10000\ntarget: 10001" "Ch" 0
    10000 (by decide)

/-- Witness for C4 at concrete inputs: a success resets the counter of
a monitor that had 3 failures; a fourth failure increments to 4 without
closing; a fifth failure closes with `symbol_not_found` and the
0-priced record. -/
theorem C4_witness :
    (monitorStep { sig := {}, errorCount := 3 } (some 2, "Binance")).errorCount = 0 ∧
    ((monitorStep { sig := {}, errorCount := 3 } (none, "None")).errorCount = 4 ∧
      (monitorStep { sig := {}, errorCount := 3 } (none, "None")).closed = none ∧
      (monitorStep { sig := {}, errorCount := 3 } (none, "None")).history =
        ({ sig := {}, errorCount := 3 } : MonitorState).history) ∧
    ((monitorStep { sig := {}, errorCount := 4 } (none, "None")).closed =
      some "symbol_not_found" ∧
      (monitorStep { sig := {}, errorCount := 4 } (none, "None")).history =
        ({ sig := {}, errorCount := 4 } : MonitorState).history ++
          [("symbol_not_found", 0)]) :=
  ⟨C4_consecutive_failure_handling.1 { sig := {}, errorCount := 3 } 2 "Binance"
      rfl (by decide),
   C4_consecutive_failure_handling.2.1 { sig := {}, errorCount := 3 } "None"
      rfl (by decide) (by decide),
   C4_consecutive_failure_handling.2.2 { sig := {}, errorCount := 4 } "None"
      rfl (by decide) (by decide)⟩

/-! ### Claim C1 -/

theorem isEmpty_false_of_ne_nil {α : Type} {l : List α} (h : l ≠ []) :
    l.isEmpty = false := by
  cases l with
  | nil => exact absurd rfl h
  | cons a t => rfl

theorem dirFilter_long {e tp : ℚ} {tps : List ℚ}
    (h : tp ∈ dirFilter "LONG" e tps) : e < tp := by
  unfold dirFilter at h
  rw [if_neg (by decide : ¬ ("LONG" : String) = "SHORT"), if_pos rfl] at h
  exact of_decide_eq_true (List.mem_filter.mp (mem_sortAsc.mp h)).2

theorem dirFilter_short {e tp : ℚ} {tps : List ℚ}
    (h : tp ∈ dirFilter "SHORT" e tps) : tp < e := by
  unfold dirFilter at h
  rw [if_pos rfl] at h
  exact of_decide_eq_true (List.mem_filter.mp (mem_sortDesc.mp h)).2

theorem stage_inv (dir : String) (entry tps1 tps2 tps3 : List ℚ) (e : ℚ)
    (he : entry.head? = some e)
    (h2 : tps2 = if !entry.isEmpty && !tps1.isEmpty then
        dirFilter dir entry.headI tps1 else tps1)
    (h3 : tps3 = if !entry.isEmpty && !tps2.isEmpty then
        closeFilter dir entry.headI tps2 else tps2) :
    (dir = "LONG" → ∀ tp ∈ tps3, e < tp) ∧
    (dir = "SHORT" → ∀ tp ∈ tps3, tp < e) := by
  rcases headI_of_head? he with ⟨hh, hne⟩
  have hee : entry.isEmpty = false := isEmpty_false_of_ne_nil hne
  rw [hee, hh] at h2 h3
  simp only [Bool.not_false, Bool.true_and] at h2 h3
  constructor
  · intro hdir tp htp
    subst hdir
    by_cases hq : tps2.isEmpty
    · rw [hq] at h3
      simp only [Bool.not_true, Bool.false_eq_true, if_false] at h3
      subst h3
      rw [List.isEmpty_iff.mp hq] at htp
      cases htp
    · have hq' : tps2.isEmpty = false := isEmpty_false_of_ne_nil
        (fun hx => hq (by rw [hx]; rfl))
      rw [hq'] at h3
      simp only [Bool.not_false, if_true] at h3
      subst h3
      have htp2 : tp ∈ tps2 := closeFilter_mem htp
      by_cases hp : tps1.isEmpty
      · rw [hp] at h2
        simp only [Bool.not_true, Bool.false_eq_true, if_false] at h2
        subst h2
        rw [List.isEmpty_iff.mp hp] at htp2
        cases htp2
      · have hp' : tps1.isEmpty = false := isEmpty_false_of_ne_nil
          (fun hx => hp (by rw [hx]; rfl))
        rw [hp'] at h2
        simp only [Bool.not_false, if_true] at h2
        subst h2
        exact dirFilter_long htp2
  · intro hdir tp htp
    subst hdir
    by_cases hq : tps2.isEmpty
    · rw [hq] at h3
      simp only [Bool.not_true, Bool.false_eq_true, if_false] at h3
      subst h3
      rw [List.isEmpty_iff.mp hq] at htp
      cases htp
    · have hq' : tps2.isEmpty = false := isEmpty_false_of_ne_nil
        (fun hx => hq (by rw [hx]; rfl))
      rw [hq'] at h3
      simp only [Bool.not_false, if_true] at h3
      subst h3
      have htp2 : tp ∈ tps2 := closeFilter_mem htp
      by_cases hp : tps1.isEmpty
      · rw [hp] at h2
        simp only [Bool.not_true, Bool.false_eq_true, if_false] at h2
        subst h2
        rw [List.isEmpty_iff.mp hp] at htp2
        cases htp2
      · have hp' : tps1.isEmpty = false := isEmpty_false_of_ne_nil
          (fun hx => hp (by rw [hx]; rfl))
        rw [hp'] at h2
        simp only [Bool.not_false, if_true] at h2
        subst h2
        exact dirFilter_short htp2

/-- Claim C1 (amended): the direction-consistency invariant holds for
the signal RETURNED BY `parse_signal` whenever the source is not a
`CryptoFutures` channel: with a known first entry price, every
take-profit is strictly above it for LONG and strictly below it for
SHORT.  For `CryptoFutures` sources it fails: lines 826-828 copy the
unchecked limit prices into `entry_prices` AFTER the direction filter
(which only runs when `entry_prices` was already non-empty) and the
0.5%-filter's `if filtered_tps:` guard then keeps the unfiltered
originals (see the counterexample). -/
theorem C1_direction_invariant (text source : String) (now : ℚ) (e : ℚ)
    (hcf : containsSub source.data ("CryptoFutures").data = false)
    (he : (parse_signal text source now).entry_prices.head? = some e) :
    ((parse_signal text source now).direction = "LONG" →
      ∀ tp ∈ (parse_signal text source now).take_profits, e < tp) ∧
    ((parse_signal text source now).direction = "SHORT" →
      ∀ tp ∈ (parse_signal text source now).take_profits, tp < e) := by
  revert he
  simp only [parse_signal, hcf, Bool.false_and, Bool.false_eq_true, if_false]
  intro he
  exact stage_inv _ _ _ _ _ e he rfl rfl

/-- Counterexample to claim C1 as stated: parsing
`BTC LONG / limit: 100 / target: 90` from a `CryptoFutures` source
returns a LONG signal with entry 100 and take-profit 90.  The
direction filter is skipped (`entry_prices` is still empty when it
runs), lines 826-828 then copy the limit price into `entry_prices`,
and the 0.5% filter keeps the original targets because its filtered
list is empty — the claimed invariant fails at the parse point. -/
theorem C1_counterexample :
    (parse_signal "BTC LONG\nlimit: 100\ntarget: 90" "CryptoFutures"
      0).direction = "LONG" ∧
    (parse_signal "BTC LONG\nlimit: 100\ntarget: 90" "CryptoFutures"
      0).entry_prices = [100] ∧
    (parse_signal "BTC LONG\nlimit: 100\ntarget: 90" "CryptoFutures"
      0).take_profits = [90] ∧
    ¬ ((100 : ℚ) < 90) := by
  exact ⟨by decide, by decide, by decide, by decide⟩

/-- Witness for C1 on Scenario A parsed from a non-CryptoFutures
source: entry 65000, all take-profits strictly above it. -/
theorem C1_witness :
    ((parse_signal
        "BTCUSDT LONG\nEntry: 65000\nTargets: 67000, 69000, 72000\nStop: 63000"
        "Test" 0).direction = "LONG" →
      ∀ tp ∈ (parse_signal
        "BTCUSDT LONG\nEntry: 65000\nTargets: 67000, 69000, 72000\nStop: 63000"
        "Test" 0).take_profits, (65000 : ℚ) < tp) ∧
    ((parse_signal
        "BTCUSDT LONG\nEntry: 65000\nTargets: 67000, 69000, 72000\nStop: 63000"
        "Test" 0).direction = "SHORT" →
      ∀ tp ∈ (parse_signal
        "BTCUSDT LONG\nEntry: 65000\nTargets: 67000, 69000, 72000\nStop: 63000"
        "Test" 0).take_profits, tp < (65000 : ℚ)) :=
  C1_direction_invariant
    "BTCUSDT LONG\nEntry: 65000\nTargets: 67000, 69000, 72000\nStop: 63000"
    "Test" 0 65000 (by decide) (by decide)

/-! ### Claim C2 -/

/-- Claim C2 is a code bug: the two-message merge protocol is dead
code.  `handle_khrustalev_message`'s first statement fails the
`advanced_parser.parse_khrustalev` attribute lookup (`telethon_bot.py`
line 546; the instance has no such attribute) and the `except` at line
641 swallows the error, so every submission — entry fragment or
targets-only fragment, inside the TTL or not — leaves the bot state
unchanged: no fragment is ever stored and no merged signal is ever
admitted, against the claimed exactly-one admitted Signal; and
`merge_khrustalev_signals` aborts on its own first statement
(`advanced_parser.TradeSignal()`, line 660), never producing the
combined signal. -/
theorem C2_khrustalev_dead_code :
    (∀ (text source : String) (now : ℚ) (st : BotState),
      handle_khrustalev_message text source now st = st) ∧
    (∀ first second : TradeSignal,
      merge_khrustalev_signals first second = none) :=
  ⟨fun _ _ _ _ => rfl, fun _ _ => rfl⟩

end TradingBot
